import Mathlib

/-!
# gollum — the File producer, the Scribe producer and the log consumer

A shallow embedding of the rotation logic of the `File` producer
(`producer/file.go`): the configuration binding (`Configure`), the rotation
predicate (`needsRotate`), the opening of a log file (`openLog`), the
background compressor (`compressAndCloseLog`) and the batch protocol of
`writeMessage`; of the category resolution of the Scribe producer
(`producer/Scribe.go`); and of the log hook of the internal log consumer
(`core/logconsumer.go`), followed by theorems about them.

Conventions of the embedding.

* A Go `string` is a Lean `String`; slicing and searching work on its list of
  characters.
* A `time.Time` is an integer number of nanoseconds on the local wall clock,
  counted from a local midnight, in a location with a fixed offset; a
  `time.Duration` is an integer number of nanoseconds, clamped to the `int64`
  range by `Time.Sub` as in Go.
* `Duration.Minutes` is a `float64` in Go.  Here it is the exact rational with
  the same defining formula.
* Results of system calls that the code inspects (`Stat`, `OpenFile`, the
  target `OpenFile` and the copy loop of the compressor) are inputs of the
  embedded functions, and so is a failure of `ioutil.ReadDir`, which leaves
  the listing empty.  `os.Remove` and `os.Symlink`, whose errors the code
  discards, act on an explicit model of the file system, a map from paths to
  entries; whether such a call fails is an input too, and a failed call leaves
  the file system as it is.
* One call reads the clock once: no time passes inside `needsRotate` or
  `openLog`.
* A Go `map` is a list of entries with distinct keys; a loop over a map runs in
  the order of the list, and the theorems hold for every order.
* Types and functions of the repository that are not among the sources
  (`PluginConfig`, `MessageBatch`, `Message`, the stream hash) are parameters
  or small models, marked as such where they are declared.
-/

namespace Gollum

/-! ## Go values -/

/-- A Go `error` value; `none : Option GoError` is the `nil` error. -/
structure GoError where
  msg : String
  deriving DecidableEq, Repr

/-- An open `*os.File`; `Name()` is the path it was opened with. -/
structure OsFile where
  name : String
  deriving DecidableEq, Repr

deriving instance DecidableEq for Except

/-- Wrap an integer into the `int64` range (two's complement). -/
def wrapInt64 (x : Int) : Int := (x + 2 ^ 63) % 2 ^ 64 - 2 ^ 63

/-! ## package time -/

/-- Nanoseconds on the local wall clock. -/
abbrev Time := Int

/-- Nanoseconds. -/
abbrev Duration := Int

def Second : Int := 1000000000
def Minute : Int := 60 * Second
def Hour : Int := 60 * Minute
def Day : Int := 24 * Hour

def minDuration : Int := -(2 ^ 63)
def maxDuration : Int := 2 ^ 63 - 1

/-- `t.Sub(u)`: the duration `t - u`, saturated at the `int64` bounds. -/
def Time.Sub (t u : Int) : Int :=
  if t - u < minDuration then minDuration
  else if maxDuration < t - u then maxDuration
  else t - u

/-- `time.Since(t)` at clock reading `now`. -/
def Since (now t : Int) : Int := Time.Sub now t

/-- `d.Minutes()`: `min := d / Minute; nsec := d % Minute;
return float64(min) + float64(nsec)/(60*1e9)`, over the rationals.  The
`float64` sum of Go can round up to the next whole minute where the rational
stays below it: from about 262144 minutes on, for a duration a nanosecond
short of a whole minute.  The concrete inputs below are far from that. -/
def Duration.Minutes (d : Int) : ℚ :=
  ((Int.tdiv d Minute : Int) : ℚ) + ((Int.tmod d Minute : Int) : ℚ) / (60 * 1000000000)

/-- `time.Date(now.Year(), now.Month(), now.Day(), hour, min, 0, 0, now.Location())`:
the midnight that starts the day of `now`, plus `hour` hours and `min` minutes
(out-of-range values are normalised by carrying over, as `time.Date` does). -/
def dateToday (now : Int) (hour min : Int) : Int :=
  (now - now % Day) + hour * Hour + min * Minute

/-! ## The producer state -/

/-- The fields of `type File struct` that the rotation logic reads or writes.
`file = none` is the nil `*os.File`.  (`ProducerBase`, `batch` and `bgWriter`
are not used by the functions embedded here.) -/
structure File where
  file : Option OsFile
  fileDir : String
  fileName : String
  fileExt : String
  fileCreated : Time
  rotateSizeByte : Int
  batchSize : Int
  batchTimeout : Duration
  rotateTimeoutMin : Int
  rotateAtHour : Int
  rotateAtMin : Int
  rotate : Bool
  compress : Bool
  forceRotate : Bool
  deriving DecidableEq, Repr

/-- What `needsRotate` observes of the outside world: the clock and the result
of `prod.file.Stat()` (the size on disk, or an error). -/
structure Probe where
  now : Time
  stat : Except GoError Int

/-- `func (prod *File) needsRotate() (bool, error)`.  The method assigns no
field of `prod`; the state is threaded through to make that explicit. -/
def needsRotate (prod : File) (w : Probe) : (Bool × Option GoError) × File :=
  -- File does not exist?
  if prod.file = none then ((true, none), prod)
  -- File needs rotation?
  else if !prod.rotate then ((false, none), prod)
  else if prod.forceRotate then ((true, none), prod)
  else
    -- File can be accessed?
    match w.stat with
    | .error err => ((false, some err), prod)
    | .ok size =>
      -- File is too large?
      if size ≥ prod.rotateSizeByte then ((true, none), prod)
      -- File is too old?
      else if Duration.Minutes (Since w.now prod.fileCreated) ≥ (prod.rotateTimeoutMin : ℚ) then
        ((true, none), prod)
      -- RotateAt crossed?
      else if prod.rotateAtHour > -1 ∧ prod.rotateAtMin > -1
          ∧ Duration.Minutes (Time.Sub prod.fileCreated
                (dateToday w.now prod.rotateAtHour prod.rotateAtMin)) < 0 then
        ((true, none), prod)
      -- nope, everything is ok
      else ((false, none), prod)

/-! ## package strings, strconv, path/filepath -/

/-- `strings.HasPrefix` on character lists. -/
def hasPrefix : List Char → List Char → Bool
  | _, [] => true
  | [], _ :: _ => false
  | c :: cs, p :: ps => c == p && hasPrefix cs ps

/-- `strings.Contains` on character lists: `sub` occurs somewhere in `s`. -/
def containsChars : List Char → List Char → Bool
  | [], sub => sub.isEmpty
  | c :: cs, sub => hasPrefix (c :: cs) sub || containsChars cs sub

/-- `strings.Contains(s, substr)`. -/
def Contains (s substr : String) : Bool := containsChars s.data substr.data

/-- `strings.Split(s, sep)` for a separator of one character: the pieces between
the occurrences of `sep`; a string without `sep` gives one piece. -/
def splitChars (sep : Char) : List Char → List (List Char)
  | [] => [[]]
  | c :: cs =>
    if c = sep then [] :: splitChars sep cs
    else
      match splitChars sep cs with
      | [] => [[c]]
      | piece :: rest => (c :: piece) :: rest

/-- `strings.Split(s, string(sep))`. -/
def Split (s : String) (sep : Char) : List String :=
  (splitChars sep s.data).map String.mk

/-- The errors of `strconv`: `ErrSyntax` and `ErrRange`. -/
inductive NumError where
  | ErrSyntax
  | ErrRange
  deriving DecidableEq, Repr

/-- The value of a digit in `strconv.ParseUint`. -/
def digitVal (d : Char) : Option Nat :=
  if '0' ≤ d ∧ d ≤ '9' then some (d.toNat - '0'.toNat)
  else if 'a' ≤ d ∧ d ≤ 'z' then some (d.toNat - 'a'.toNat + 10)
  else if 'A' ≤ d ∧ d ≤ 'Z' then some (d.toNat - 'A'.toNat + 10)
  else none

/-- The digit loop of `strconv.ParseUint(s, base, bitSize)` with
`maxVal = 1<<bitSize - 1`: it stops at the first character that is no digit of
the base (syntax error) and at the first overflow (range error). -/
def parseUintLoop (base maxVal : Nat) : List Char → Nat → Nat × Option NumError
  | [], n => (n, none)
  | d :: ds, n =>
    match digitVal d with
    | none => (0, some .ErrSyntax)
    | some v =>
      if v ≥ base then (0, some .ErrSyntax)
      else if n ≥ (2 ^ 64 - 1) / base + 1 then (maxVal, some .ErrRange)
      else if n * base + v ≥ 2 ^ 64 ∨ n * base + v > maxVal then (maxVal, some .ErrRange)
      else parseUintLoop base maxVal ds (n * base + v)

/-- `strconv.ParseUint(s, base, bitSize)` for `2 ≤ base ≤ 36`, `bitSize > 0`. -/
def ParseUint (s : List Char) (base bitSize : Nat) : Nat × Option NumError :=
  if s = [] then (0, some .ErrSyntax)
  else parseUintLoop base (2 ^ bitSize - 1) s 0

/-- `strconv.ParseInt(s, base, bitSize)` for `2 ≤ base ≤ 36`, `bitSize > 0`:
an optional sign, then `ParseUint`; a value out of range is replaced by the
nearest bound and reported as a range error. -/
def ParseInt (s : String) (base bitSize : Nat) : Int × Option NumError :=
  match s.data with
  | [] => (0, some .ErrSyntax)
  | c :: cs =>
    let neg := c = '-'
    let body := if c = '+' ∨ c = '-' then cs else c :: cs
    match ParseUint body base bitSize with
    | (_, some .ErrSyntax) => (0, some .ErrSyntax)
    | (un, _) =>
      let cutoff := 2 ^ (bitSize - 1)
      if ¬ neg ∧ un ≥ cutoff then ((cutoff : Int) - 1, some .ErrRange)
      else if neg ∧ un > cutoff then (-(cutoff : Int), some .ErrRange)
      else (if neg then -(un : Int) else (un : Int), none)

/-- `filepath.Ext`: the suffix beginning at the final dot of the final
slash-separated element of the path, empty if there is none.  The scan runs
over the reversed path with the suffix read so far. -/
def extRev : List Char → List Char → List Char
  | [], _ => []
  | c :: cs, acc => if c = '/' then [] else if c = '.' then '.' :: acc else extRev cs (c :: acc)

/-- `filepath.Ext(path)`. -/
def Ext (path : String) : String := String.mk (extRev path.data.reverse [])

/-- `filepath.Base(path)`: the last element of the path, after trailing slashes
are removed; `.` for the empty path and `/` for a path of slashes only. -/
def Base (path : String) : String :=
  if path.data = [] then "."
  else
    let stripped := (path.data.reverse.dropWhile (fun c => c == '/'))
    let last := (stripped.takeWhile (fun c => c != '/')).reverse
    if last = [] then "/" else String.mk last

/-- The Go slice `s[:len(s)-n]`, which panics when `n > len(s)`.  Go counts
bytes, this definition counts characters: the two agree on ASCII text and
whenever the `n` characters dropped are ASCII. -/
def dropSuffixLen (s : String) (n : Nat) : Except String String :=
  if n ≤ s.data.length then .ok (String.mk (s.data.take (s.data.length - n)))
  else .error "slice bounds out of range"

/-! ## Configure -/

/-- Modelled from the spec: `core.PluginConfig` is not among the sources.  It is
the option map of one plugin instance of the configuration file; `GetString`,
`GetInt` and `GetBool` return the configured value of a key, or the default
passed by the caller when the key is absent. -/
structure PluginConfig where
  strings : String → Option String
  ints : String → Option Int
  bools : String → Option Bool

def PluginConfig.GetString (conf : PluginConfig) (key dflt : String) : String :=
  (conf.strings key).getD dflt

def PluginConfig.GetInt (conf : PluginConfig) (key : String) (dflt : Int) : Int :=
  (conf.ints key).getD dflt

def PluginConfig.GetBool (conf : PluginConfig) (key : String) (dflt : Bool) : Bool :=
  (conf.bools key).getD dflt

/-- What `Configure` calls outside `file.go`: `prod.ProducerBase.Configure(conf)`
(its error, `none` for nil), `os.MkdirAll` (its error for a directory) and
`filepath.Dir`. -/
structure ConfigureEnv where
  baseConfigure : Option GoError
  mkdirAll : String → Option GoError
  dir : String → String

/-- `func (prod *File) Configure(conf core.PluginConfig) error`.
The result is `.error` when the Go code panics (index or slice out of range),
otherwise the returned error and the producer as the call leaves it. -/
def Configure (prod : File) (conf : PluginConfig) (env : ConfigureEnv) :
    Except String (Option GoError × File) :=
  match env.baseConfigure with
  | some err => .ok (some err, prod)
  | none =>
    let logFile := conf.GetString "File" "/var/prod/gollum.log"
    let prod := { prod with
      batchSize := conf.GetInt "BatchSizeByte" 8192
      batchTimeout := wrapInt64 (conf.GetInt "BatchTimeoutSec" 5 * Second)
      forceRotate := false
      rotate := conf.GetBool "Rotate" false
      rotateTimeoutMin := conf.GetInt "RotateTimeoutMin" 1440
      rotateSizeByte := wrapInt64 (conf.GetInt "RotateSizeMB" 1024 * 2 ^ 20)
      rotateAtHour := -1
      rotateAtMin := -1
      compress := conf.GetBool "Compress" false
      fileDir := env.dir logFile
      fileExt := Ext logFile
      fileName := Base logFile }
    match dropSuffixLen prod.fileName prod.fileExt.data.length with
    | .error p => .error p
    | .ok name =>
      let prod := { prod with fileName := name, file := none }
      match env.mkdirAll prod.fileDir with
      | some err => .ok (some err, prod)
      | none =>
        let rotateAt := conf.GetString "RotateAt" ""
        if rotateAt ≠ "" then
          match Split rotateAt ':' with
          | p0 :: p1 :: _ =>
            let rotateAtHour := (ParseInt p0 10 8).1
            let rotateAtMin := (ParseInt p1 10 8).1
            .ok (none, { prod with rotateAtHour := rotateAtHour, rotateAtMin := rotateAtMin })
          | _ => .error "index out of range"
        else .ok (none, prod)

/-! ## The file system -/

/-- A directory entry: a regular file with its size in bytes, or a symbolic
link with its target. -/
inductive Entry where
  | regular (size : Nat)
  | symlink (target : String)
  deriving DecidableEq, Repr

/-- The file system: the entries that exist, by path. -/
abbrev FS := List (String × Entry)

/-- The entry at a path, if one exists. -/
def FS.lookup (fs : FS) (path : String) : Option Entry := List.lookup path fs

/-- The file system without the entry at `path`. -/
def FS.erase (fs : FS) (path : String) : FS := fs.filter (fun e => e.1 != path)

/-- `os.Remove(path)` for a caller that discards its error.  `fails` tells
whether the call fails on an entry that exists (a directory that is not empty,
missing permissions, a read-only file system): the entry then stays in place;
otherwise no entry is left at `path`. -/
def FS.remove (fs : FS) (path : String) (fails : Bool) : FS :=
  if fails then fs else fs.erase path

/-- `os.Symlink(target, path)` for a caller that discards its error.  The call
fails when an entry exists at `path`, and when `fails` is set (no support for
symbolic links, missing permissions, a read-only file system); the file system
is then left as it is, otherwise the link is created. -/
def FS.symlink (fs : FS) (target path : String) (fails : Bool) : FS :=
  if fails then fs
  else
    match fs.lookup path with
    | some _ => fs
    | none => (path, Entry.symlink target) :: fs

/-- A successful `os.OpenFile(path, O_RDWR|O_CREATE|O_APPEND, 0666)`: an
existing entry is kept, a missing one is created empty. -/
def FS.create (fs : FS) (path : String) : FS :=
  match fs.lookup path with
  | some _ => fs
  | none => (path, Entry.regular 0) :: fs

/-- A successful `os.OpenFile(path, O_WRONLY|O_CREATE|O_TRUNC, 0666)`: the
file at `path` exists and is empty afterwards. -/
def FS.truncate (fs : FS) (path : String) : FS :=
  (path, Entry.regular 0) :: fs.erase path

/-- Bytes written to the file at `path`: its size becomes `size`. -/
def FS.write (fs : FS) (path : String) (size : Nat) : FS :=
  fs.map (fun e => if e.1 = path then (e.1, Entry.regular size) else e)

/-- The size of the regular file at `path`, 0 if there is none. -/
def FS.size (fs : FS) (path : String) : Nat :=
  match fs.lookup path with
  | some (Entry.regular n) => n
  | _ => 0

/-- The name of `path` inside `dir`, when `path` is `dir/<name>` and `name` is
one path element. -/
def childName (dir path : String) : Option String :=
  let pre := dir.data ++ ['/']
  let rest := path.data.drop pre.length
  if hasPrefix path.data pre ∧ rest ≠ [] ∧ '/' ∉ rest then some (String.mk rest) else none

/-- A successful `ioutil.ReadDir(dir)`: the names of the entries of `dir`. -/
def FS.ReadDir (fs : FS) (dir : String) : List String :=
  fs.filterMap (fun e => childName dir e.1)

/-! ## openLog -/

/-- What `openLog` observes of the outside world besides the file system: the
clock, its rendering by `Format("2006-01-02_15")`, the result of `Stat` on the
open file, whether `ioutil.ReadDir` fails, and the error of `os.OpenFile` for
a path (`none` when it succeeds); and, for the two calls whose error `openLog`
discards, whether `os.Remove` fails on an existing entry and whether
`os.Symlink` fails. -/
structure World where
  now : Int
  timestamp : String
  stat : Except GoError Int
  readDirFails : Bool
  openFile : String → Option GoError
  removeFails : Bool
  symlinkFails : Bool

/-- The loop `for _, file := range files { if strings.Contains(file.Name(),
signature) { counter++ } }`. -/
def countSignature (files : List String) (signature : String) : Nat :=
  files.foldl (fun counter name => if Contains name signature then counter + 1 else counter) 0

/-- Lines 262 to 283 of `openLog`: the name of the log file, from the names
`files` that `ioutil.ReadDir` returned and the hour stamp of the clock. -/
def logFileNameOf (prod : File) (files : List String) (timestamp : String) : String :=
  if !prod.rotate then prod.fileName ++ prod.fileExt
  else
    let signature := prod.fileName ++ "_" ++ timestamp
    let counter := countSignature files signature
    if counter = 0 then signature ++ prod.fileExt
    else signature ++ "_" ++ toString counter ++ prod.fileExt

/-- The outcome of `openLog`: the returned error, the producer and the file
system as the call leaves them, and the file handed to
`go prod.compressAndCloseLog(currentLog)`, if any. -/
structure OpenLogResult where
  err : Option GoError
  prod : File
  fs : FS
  spawned : Option OsFile

/-- `func (prod *File) openLog() error`. -/
def openLog (prod : File) (fs : FS) (w : World) : OpenLogResult :=
  match needsRotate prod { now := w.now, stat := w.stat } with
  | ((false, err), prod) => { err := err, prod := prod, fs := fs, spawned := none }
  | ((true, _), prod) =>
    -- Generate the log filename based on rotation, existing files, etc.
    let files := if w.readDirFails then [] else fs.ReadDir prod.fileDir
    let logFileName := logFileNameOf prod files w.timestamp
    let logFile := prod.fileDir ++ "/" ++ logFileName
    -- Close existing log
    let spawned := prod.file
    let prod := { prod with file := none }
    -- (Re)open logfile
    match w.openFile logFile with
    | some err =>
      { err := some err, prod := { prod with forceRotate := false }, fs := fs,
        spawned := spawned }
    | none =>
      let fs := fs.create logFile
      let prod := { prod with file := some { name := logFile }, fileCreated := w.now }
      -- Create "current" symlink
      let fs :=
        if prod.rotate then
          let symLinkName := prod.fileDir ++ "/" ++ prod.fileName ++ "_current"
          (fs.remove symLinkName w.removeFails).symlink logFileName symLinkName w.symlinkFails
        else fs
      { err := none, prod := { prod with forceRotate := false }, fs := fs, spawned := spawned }

/-! ## compressAndCloseLog -/

/-- How the loop `for err == nil { _, err = io.CopyN(targetWriter, sourceFile,
1<<20) }` ends: with `io.EOF` or with another error. -/
inductive CopyEnd where
  | eof
  | failed (err : GoError)
  deriving DecidableEq, Repr

/-- The copy loop on a source with `full` whole chunks of 1 MiB left, at chunk
number `i`: a chunk that hits an I/O error ends the loop with that error, a
whole chunk copied leaves `err == nil` and the loop goes on, and the chunk that
finds fewer than 1 MiB left ends it with `io.EOF`. -/
def copyChunks (chunkErr : Nat → Option GoError) : Nat → Nat → CopyEnd
  | 0, i =>
    match chunkErr i with
    | some err => .failed err
    | none => .eof
  | full + 1, i =>
    match chunkErr i with
    | some err => .failed err
    | none => copyChunks chunkErr full (i + 1)

/-- What the compressor meets outside the file system: the error of the
`os.OpenFile` of the target (`none` when it succeeds), the I/O error of the
chunk with a given number (`none` when the chunk is copied), the size of the
gzip stream written, and whether the final `os.Remove`, whose error is only
logged, fails. -/
structure CompressEnv where
  openTarget : Option GoError
  chunkErr : Nat → Option GoError
  gzSize : Nat
  removeFails : Bool

/-- `compressAndCloseLog` up to the successful `os.OpenFile` of the target:
`.ok none` when the function has returned (compression off, or the target could
not be opened), `.ok (some (target, fs))` when the target is open, `.error`
when slicing `sourceBase` panics. -/
def compressOpen (prod : File) (sourceFile : OsFile) (fs : FS) (io : CompressEnv) :
    Except String (Option (String × FS)) :=
  if !prod.compress then .ok none
  else
    -- Generate file to zip into
    let sourceFileName := sourceFile.name
    match dropSuffixLen (Base sourceFileName) prod.fileExt.data.length with
    | .error p => .error p
    | .ok sourceBase =>
      let targetFileName := prod.fileDir ++ "/" ++ sourceBase ++ ".gz"
      match io.openTarget with
      | some _ => .ok none
      | none => .ok (some (targetFileName, fs.truncate targetFileName))

/-- `compressAndCloseLog` from the copy loop to the end: the source is read as
it is on disk now, the gzip stream is written, and the target is removed on an
error other than `io.EOF`, the source otherwise. -/
def compressCopy (sourceFile : OsFile) (targetFileName : String) (fs : FS)
    (io : CompressEnv) : FS :=
  let err := copyChunks io.chunkErr (fs.size sourceFile.name / 2 ^ 20) 0
  let fs := fs.write targetFileName io.gzSize
  match err with
  | .failed _ => fs.remove targetFileName io.removeFails
  | .eof => fs.remove sourceFile.name io.removeFails

/-- `func (prod *File) compressAndCloseLog(sourceFile *os.File)`, run without
interruption.  The function returns nothing to its caller. -/
def compressAndCloseLog (prod : File) (sourceFile : OsFile) (fs : FS) (io : CompressEnv) :
    Except String FS :=
  match compressOpen prod sourceFile fs io with
  | .error p => .error p
  | .ok none => .ok fs
  | .ok (some (targetFileName, fs)) => .ok (compressCopy sourceFile targetFileName fs io)

/-! ## The producer and its background compressors -/

/-- `func (prod *File) rotateLog()`: the handler of the roll command.  The
error of `openLog` is logged. -/
def rotateLog (prod : File) (fs : FS) (w : World) : OpenLogResult :=
  openLog { prod with forceRotate := true } fs w

/-- Where a goroutine running `compressAndCloseLog` stands: started, copying
into its open target, or returned. -/
inductive Phase where
  | started
  | copying (target : String)
  | returned
  deriving DecidableEq, Repr

/-- A goroutine started by `go prod.compressAndCloseLog(currentLog)`. -/
structure Job where
  source : OsFile
  phase : Phase
  deriving DecidableEq, Repr

/-- One producer, the directory it writes to, and the compressors it has
started, in the order in which they were started. -/
structure Sys where
  prod : File
  fs : FS
  jobs : List Job

/-- The scheduler's choices: the producer task runs `openLog` (from
`writeBatch`) or `rotateLog`, or compressor number `i` runs up to the opening of
its target, or from there to its end. -/
inductive Event where
  | openLog (w : World)
  | rotateLog (w : World)
  | compressorOpens (i : Nat) (io : CompressEnv)
  | compressorCopies (i : Nat) (io : CompressEnv)

/-- The system after a call of `openLog` or `rotateLog` with outcome `r`. -/
def Sys.afterOpen (s : Sys) (r : OpenLogResult) : Sys :=
  { prod := r.prod, fs := r.fs,
    jobs := s.jobs ++ (match r.spawned with
                       | some f => [{ source := f, phase := Phase.started }]
                       | none => []) }

/-- One step of the system; `none` when the event is not enabled (no such
compressor, or not in the phase the event needs) or the compressor panics. -/
def Sys.step (s : Sys) : Event → Option Sys
  | .openLog w => some (s.afterOpen (openLog s.prod s.fs w))
  | .rotateLog w => some (s.afterOpen (rotateLog s.prod s.fs w))
  | .compressorOpens i io =>
    match s.jobs.get? i with
    | some { source := src, phase := Phase.started } =>
      match compressOpen s.prod src s.fs io with
      | .error _ => none
      | .ok none => some { s with jobs := s.jobs.set i { source := src, phase := Phase.returned } }
      | .ok (some (target, fs)) =>
        some { s with fs := fs,
                      jobs := s.jobs.set i { source := src, phase := Phase.copying target } }
    | _ => none
  | .compressorCopies i io =>
    match s.jobs.get? i with
    | some { source := src, phase := Phase.copying target } =>
      some { s with fs := compressCopy src target s.fs io,
                    jobs := s.jobs.set i { source := src, phase := Phase.returned } }
    | _ => none

/-- Run a schedule from a state. -/
def Sys.run (s : Sys) : List Event → Option Sys
  | [] => some s
  | e :: es =>
    match s.step e with
    | none => none
    | some s1 => s1.run es

/-- The sources of the compressors that have not returned. -/
def Sys.running (s : Sys) : List OsFile :=
  (s.jobs.filter (fun j => j.phase != Phase.returned)).map (fun j => j.source)

/-! ## The Scribe producer (`producer/Scribe.go`) -/

/-- A Go `map`: at most one value per key.  `mapSet` is the assignment
`m[k] = v`, `mapGet` the lookup `v, ok := m[k]`. -/
abbrev GoMap (κ ν : Type) := List (κ × ν)

/-- The assignment `m[k] = v`. -/
def mapSet {κ ν : Type} [DecidableEq κ] (m : GoMap κ ν) (k : κ) (v : ν) : GoMap κ ν :=
  (k, v) :: m.filter (fun e => e.1 != k)

/-- The lookup `v, ok := m[k]`. -/
def mapGet {κ ν : Type} [DecidableEq κ] (m : GoMap κ ν) (k : κ) : Option ν :=
  List.lookup k m

/-- A `shared.MessageStreamID`, an unsigned 64-bit hash. -/
abbrev MessageStreamID := Nat

/-- The message that `Scribe.sendMessage` receives: its `PinnedStream` and its
payload.  (The type `shared.Message` that `Scribe.go` uses, with a
`PinnedStream` field, is not among the sources.) -/
structure ScribeMessage where
  PinnedStream : MessageStreamID
  Data : String
  deriving DecidableEq, Repr

/-- A value of an option in the configuration file. -/
inductive ConfValue where
  | str (s : String)
  | int (n : Int)
  | strMap (m : List (String × String))
  deriving DecidableEq, Repr

/-- Modelled from the spec: `shared.PluginConfig` is not among the sources.  It
is the option map of one plugin instance; `HasValue` tells whether a key is
set, `Override` sets it, and the getters return the configured value of a key
or the default passed by the caller when the key is absent. -/
structure SharedPluginConfig where
  values : String → Option ConfValue

def SharedPluginConfig.HasValue (conf : SharedPluginConfig) (key : String) : Bool :=
  (conf.values key).isSome

def SharedPluginConfig.Override (conf : SharedPluginConfig) (key value : String) :
    SharedPluginConfig :=
  { values := fun k => if k = key then some (ConfValue.str value) else conf.values k }

def SharedPluginConfig.GetString (conf : SharedPluginConfig) (key dflt : String) : String :=
  match conf.values key with
  | some (ConfValue.str s) => s
  | _ => dflt

def SharedPluginConfig.GetInt (conf : SharedPluginConfig) (key : String) (dflt : Int) : Int :=
  match conf.values key with
  | some (ConfValue.int n) => n
  | _ => dflt

def SharedPluginConfig.GetStringMap (conf : SharedPluginConfig) (key : String)
    (dflt : List (String × String)) : List (String × String) :=
  match conf.values key with
  | some (ConfValue.strMap m) => m
  | _ => dflt

/-- `shared.WildcardStream`. -/
def WildcardStream : String := "*"

/-- What `Scribe.Configure` uses from outside `Scribe.go`: the hash
`shared.GetStreamID`, the constant `shared.WildcardStreamID`, the error of
`prod.standardProducer.Configure(conf)` and the error of `thrift.NewTSocket`
for an address (`none` is nil). -/
structure ScribeEnv where
  GetStreamID : String → MessageStreamID
  WildcardStreamID : MessageStreamID
  standardConfigure : Option GoError
  newSocket : String → Option GoError

/-- The fields of `type Scribe struct` that `Configure` and `sendMessage` use.
`bufferSizeMax` is the capacity that `createScribeMessageBuffer` was called
with, and `appended` lists the calls `prod.batch.appendAndRelease(message,
category)` in order; the connection fields are left out. -/
structure Scribe where
  bufferSizeMax : Int
  appended : List (ScribeMessage × String)
  category : GoMap MessageStreamID String
  batchSize : Int
  batchTimeoutSec : Int
  bufferSizeKB : Int
  defaultCategory : String
  deriving DecidableEq, Repr

/-- `func (prod *Scribe) Configure(conf shared.PluginConfig) error`: the
returned error and the producer as the call leaves it.  The loop over
`categoryMap` runs in the order of the list. -/
def Scribe.Configure (prod : Scribe) (conf : SharedPluginConfig) (env : ScribeEnv) :
    Option GoError × Scribe :=
  -- If not defined, delimiter is not used (override default value)
  let conf := if !conf.HasValue "Delimiter" then conf.Override "Delimiter" "" else conf
  match env.standardConfigure with
  | some err => (some err, prod)
  | none =>
    let host := conf.GetString "Host" "localhost"
    let port := conf.GetInt "Port" 1463
    let bufferSizeMax := wrapInt64 (conf.GetInt "BufferSizeMaxKB" (8 * 2 ^ 10) * 2 ^ 1)
    let prod := { prod with
      category := []
      batchSize := conf.GetInt "BatchSizeByte" 8192
      batchTimeoutSec := conf.GetInt "BatchTimeoutSec" 5
      bufferSizeMax := bufferSizeMax
      appended := []
      bufferSizeKB := conf.GetInt "BufferSizeKB" (2 ^ 10)
      defaultCategory := "default" }
    -- Read stream to category mapping
    let defaultMapping := [(WildcardStream, prod.defaultCategory)]
    let categoryMap := conf.GetStringMap "Category" defaultMapping
    let prod := { prod with
      category := categoryMap.foldl
        (fun m e => mapSet m (env.GetStreamID e.1) e.2) prod.category }
    let prod :=
      match mapGet prod.category env.WildcardStreamID with
      | some wildcardCategory => { prod with defaultCategory := wildcardCategory }
      | none => prod
    -- Initialize scribe connection
    match env.newSocket (host ++ ":" ++ toString port) with
    | some err => (some err, prod)
    | none => (none, prod)

/-- `func (prod Scribe) sendMessage(message shared.Message)`: the producer with
the call of `appendAndRelease` recorded, and whether `prod.send()` is called;
`reached` is the answer of `prod.batch.reachedSizeThreshold(prod.batchSize)`. -/
def Scribe.sendMessage (prod : Scribe) (message : ScribeMessage) (reached : Bool) :
    Scribe × Bool :=
  let category :=
    match mapGet prod.category message.PinnedStream with
    | some category => category
    | none => prod.defaultCategory
  ({ prod with appended := prod.appended ++ [(message, category)] }, reached)

/-! ## The log consumer (`core/logconsumer.go`) -/

/-- Modelled from the spec: `core.PluginState` is not among the sources.  The
states of a plugin are Initializing, Active, Waiting, Stopping and Dead;
`Active` is `PluginStateActive` and `Dead` is `PluginStateDead`. -/
inductive PluginState where
  | Initializing
  | Active
  | Waiting
  | Stopping
  | Dead
  deriving DecidableEq, Repr

/-- Modelled from the spec: `core.PluginControl` is not among the sources.  The
control channel carries StartProducer, StopConsumer, StopProducer and Roll;
`StopConsumer` is `PluginControlStopConsumer`. -/
inductive PluginControl where
  | StartProducer
  | StopConsumer
  | StopProducer
  | Roll
  deriving DecidableEq, Repr

/-- Modelled from the spec: `core.Message` is not among the sources.  A message
has a payload, the id of its stream and a metadata map with unique keys in
which the last write of a key wins. -/
structure CoreMessage where
  data : String
  streamID : MessageStreamID
  metadata : GoMap String String
  deriving DecidableEq, Repr

/-- `NewMessage(source, data, streamID)`: a message without metadata. -/
def NewMessage (data : String) (streamID : MessageStreamID) : CoreMessage :=
  { data := data, streamID := streamID, metadata := [] }

/-- `msg.GetMetadata().SetValue(key, value)`. -/
def CoreMessage.SetValue (msg : CoreMessage) (key value : String) : CoreMessage :=
  { msg with metadata := mapSet msg.metadata key value }

/-- `logrus.Level`. -/
inductive LogLevel where
  | PanicLevel
  | FatalLevel
  | ErrorLevel
  | WarnLevel
  | InfoLevel
  | DebugLevel
  | TraceLevel
  deriving DecidableEq, Repr

/-- `logrus.Level.String()`. -/
def LogLevel.String : LogLevel → String
  | .PanicLevel => "panic"
  | .FatalLevel => "fatal"
  | .ErrorLevel => "error"
  | .WarnLevel => "warning"
  | .InfoLevel => "info"
  | .DebugLevel => "debug"
  | .TraceLevel => "trace"

/-- What `Fire` reads of a `*logrus.Entry`: the result of `String()` (the
formatted text or an error), the level, the rendering `Time.String()` and the
ad-hoc fields `Data`, a Go map given as the list of its entries. -/
structure LogEntry (α : Type) where
  formatted : Except GoError String
  Level : LogLevel
  timeString : String
  Data : List (String × α)

/-- The fields of `type LogConsumer struct` outside the channel and the
router; `timerArmed` tells whether `updateTimer` is set and pending. -/
structure LogConsumer where
  metric : String
  lastCount : Int
  lastCountWarn : Int
  lastCountError : Int
  timerArmed : Bool
  stopped : Bool
  deriving DecidableEq, Repr

/-- `func (cons *LogConsumer) Configure(conf PluginConfigReader)`, with the
option map read through `GetString`. -/
def LogConsumer.Configure (cons : LogConsumer) (conf : PluginConfig) : LogConsumer :=
  let cons := { cons with metric := conf.GetString "MetricKey" "" }
  if cons.metric ≠ "" then { cons with timerArmed := true } else cons

/-- `func (cons *LogConsumer) GetState() PluginState`. -/
def LogConsumer.GetState (cons : LogConsumer) : PluginState :=
  if cons.stopped then PluginState.Dead else PluginState.Active

/-- `func (cons *LogConsumer) Consume(threads *sync.WaitGroup)` on the commands
that arrive on the control channel, in order: the consumer when `Consume`
returns, `none` when the commands run out before a stop (the loop then waits
on the channel). -/
def LogConsumer.Consume (cons : LogConsumer) : List PluginControl → Option LogConsumer
  | [] => none
  | command :: rest =>
    if command = PluginControl.StopConsumer then
      some { cons with stopped := true, timerArmed := false }
    else cons.Consume rest

/-- The outcome of `Fire`: the returned error, the message handed to
`cons.logRouter.Enqueue`, if any, and the metric incremented, if any. -/
structure FireResult where
  err : Option GoError
  enqueued : Option CoreMessage
  metricInc : Option String
  deriving DecidableEq, Repr

/-- `func (cons *LogConsumer) Fire(logrusEntry *logrus.Entry) error`.
`sprintv` is `fmt.Sprintf("%v", ·)` and `logStream` is `LogInternalStreamID`.
The result is `.error` when the Go code panics (index or slice out of range).
The loop over `Data` runs in the order of the list. -/
def LogConsumer.Fire {α : Type} (cons : LogConsumer) (logrusEntry : LogEntry α)
    (sprintv : α → String) (logStream : MessageStreamID) : Except String FireResult :=
  -- Have Logrus format the log entry
  match logrusEntry.formatted with
  | .error err => .ok { err := some err, enqueued := none, metricInc := none }
  | .ok formattedMessage =>
    -- The formatter adds an unnecessary linefeed, strip it out
    match formattedMessage.data.getLast? with
    | none => .error "index out of range"
    | some last =>
      let stripped :=
        if last = '\n' then dropSuffixLen formattedMessage 2 else .ok formattedMessage
      match stripped with
      | .error p => .error p
      | .ok formattedMessage =>
        -- Wrap it in a Gollum message
        let msg := NewMessage formattedMessage logStream
        -- Set message metadata: level, time and logrus's ad-hoc fields.
        let msg := msg.SetValue "Level" logrusEntry.Level.String
        let msg := msg.SetValue "Time" logrusEntry.timeString
        let msg := logrusEntry.Data.foldl
          (fun msg field => msg.SetValue field.1 (sprintv field.2)) msg
        -- Metrics handling
        let metricInc :=
          if cons.metric ≠ "" then
            match logrusEntry.Level with
            | .ErrorLevel => some (cons.metric ++ "Error")
            | .WarnLevel => some (cons.metric ++ "Warning")
            | _ => some cons.metric
          else none
        .ok { err := none, enqueued := some msg, metricInc := metricInc }

/-! ## writeBatch and writeMessage (`producer/file.go`) -/

/-- The two operations of `core.MessageBatch` that `writeMessage` and
`writeBatch` call, over a batch state `β`: `Append(message)` returns whether
the message was taken, `Flush(sink, nil, onError)` starts the write to the
sink.  (`core.MessageBatch` is not among the sources.) -/
structure BatchOps (β : Type) where
  Append : β → CoreMessage → Bool × β
  Flush : β → Option OsFile → β

/-- A call on `prod.batch`: `Append(message)` with its answer, or `Flush` with
its sink. -/
inductive BatchCall where
  | Append (message : CoreMessage) (accepted : Bool)
  | Flush (sink : Option OsFile)
  deriving DecidableEq, Repr

/-- The producer with its batch, the directory it writes to, the calls made on
the batch so far and the files handed to compressors so far. -/
structure Writer (β : Type) where
  prod : File
  fs : FS
  batch : β
  calls : List BatchCall
  handed : List OsFile

/-- `func (prod *File) writeBatch()`: when `openLog` returns an error it is
logged and nothing is flushed. -/
def writeBatch {β : Type} (ops : BatchOps β) (s : Writer β) (w : World) : Writer β :=
  let r := openLog s.prod s.fs w
  let s := { s with prod := r.prod, fs := r.fs, handed := s.handed ++ r.spawned.toList }
  match r.err with
  | some _ => s
  | none =>
    { s with batch := ops.Flush s.batch s.prod.file,
             calls := s.calls ++ [BatchCall.Flush s.prod.file] }

/-- `func (prod *File) writeMessage(message core.Message)`. -/
def writeMessage {β : Type} (ops : BatchOps β) (s : Writer β) (w : World)
    (message : CoreMessage) : Writer β :=
  let first := ops.Append s.batch message
  let s := { s with batch := first.2, calls := s.calls ++ [BatchCall.Append message first.1] }
  if !first.1 then
    let s := writeBatch ops s w
    let second := ops.Append s.batch message
    { s with batch := second.2, calls := s.calls ++ [BatchCall.Append message second.1] }
  else s

/-- The number of `Append` calls in a list of calls. -/
def countAppend (calls : List BatchCall) : Nat :=
  (calls.filter (fun c => match c with
    | BatchCall.Append _ _ => true
    | BatchCall.Flush _ => false)).length

/-- The number of `Flush` calls in a list of calls. -/
def countFlush (calls : List BatchCall) : Nat :=
  (calls.filter (fun c => match c with
    | BatchCall.Append _ _ => false
    | BatchCall.Flush _ => true)).length

/-! ## The clock trigger as the specification words it -/

/-- The clock time `hour:min` has been crossed since `created`: some occurrence
`T` of `hour:min` (on day `k`) has `created < T ≤ now`.  This definition follows
the specification, not the code. -/
def specCrossed (hour min created now : Int) : Prop :=
  ∃ k : Int, created < k * Day + hour * Hour + min * Minute ∧
    k * Day + hour * Hour + min * Minute ≤ now

/-- The two decimal digits of `n`, as the specification writes an hour `HH` or
a minute `MM`. -/
def twoDigits (n : Nat) : String :=
  String.mk [Char.ofNat (48 + n / 10), Char.ofNat (48 + n % 10)]

/-- A RotateAt string of the form `HH:MM`. -/
def clockString (hour min : Nat) : String := twoDigits hour ++ ":" ++ twoDigits min

/-! ## Concrete states used in the examples -/

/-- A producer writing `/var/log/gollum.log` with the default thresholds
(`RotateTimeoutMin` 1440, `RotateSizeMB` 1024), rotation enabled, no `RotateAt`,
and a file open that was created at 10:00 on day 0. -/
def sampleProd : File :=
  { file := some ⟨"/var/log/gollum_2015-03-01_10.log"⟩
    fileDir := "/var/log"
    fileName := "gollum"
    fileExt := ".log"
    fileCreated := 10 * Hour
    rotateSizeByte := 1073741824
    batchSize := 8192
    batchTimeout := 5 * Second
    rotateTimeoutMin := 1440
    rotateAtHour := -1
    rotateAtMin := -1
    rotate := true
    compress := false
    forceRotate := false }

/-- The clock reads `now` and `Stat` reports an empty file. -/
def probeAt (now : Int) : Probe := { now := now, stat := .ok 0 }

/-- The world at 10:20 on day 0: every system call succeeds and the open file
is empty. -/
def calmWorld : World :=
  { now := 10 * Hour + 20 * Minute
    timestamp := "2015-03-01_10"
    stat := .ok 0
    readDirFails := false
    openFile := fun _ => none
    removeFails := false
    symlinkFails := false }

/-- A compressor for which every system call succeeds. -/
def calmCompress : CompressEnv :=
  { openTarget := none, chunkErr := fun _ => none, gzSize := 20, removeFails := false }

/-- The producer of `sampleProd` right after `Configure`, with `Compress` on,
in an empty directory. -/
def freshSys : Sys :=
  { prod := { sampleProd with file := none, compress := true }, fs := [], jobs := [] }

/-- Four rolls within one hour.  The first compressor has opened its target and
not yet removed its source when the third file is opened; both compressors
have returned before the last roll. -/
def overlapSchedule : List Event :=
  [ .openLog calmWorld,
    .rotateLog calmWorld,
    .compressorOpens 0 calmCompress,
    .rotateLog calmWorld,
    .compressorCopies 0 calmCompress,
    .compressorOpens 1 calmCompress,
    .compressorCopies 1 calmCompress ]

/-- The state before the last roll of `overlapSchedule`: the third file is
open, the two earlier files are compressed and their sources removed. -/
def overlapSys : Sys :=
  { prod := { sampleProd with
                file := some ⟨"/var/log/gollum_2015-03-01_10_3.log"⟩
                fileCreated := calmWorld.now
                compress := true }
    fs := [ ("/var/log/gollum_2015-03-01_10_1.gz", Entry.regular 20),
            ("/var/log/gollum_current", Entry.symlink "gollum_2015-03-01_10_3.log"),
            ("/var/log/gollum_2015-03-01_10_3.log", Entry.regular 0),
            ("/var/log/gollum_2015-03-01_10.gz", Entry.regular 20) ]
    jobs := [ { source := ⟨"/var/log/gollum_2015-03-01_10.log"⟩, phase := Phase.returned },
              { source := ⟨"/var/log/gollum_2015-03-01_10_1.log"⟩, phase := Phase.returned } ] }

/-- A producer writing `/var/log/gollum.gz` with `Rotate` and `Compress` on. -/
def gzProd : File :=
  { sampleProd with file := none, fileExt := ".gz", compress := true }

/-- A compressor whose first chunk hits an I/O error. -/
def brokenCompress : CompressEnv :=
  { openTarget := none, chunkErr := fun _ => some ⟨"input/output error"⟩, gzSize := 10,
    removeFails := false }

/-- The producer of `sampleProd` when a roll has been requested. -/
def rollingProd : File := { sampleProd with forceRotate := true }

/-- A directory with the open file of `sampleProd` and a link left by an
earlier hour. -/
def linkedFS : FS :=
  [ ("/var/log/gollum_current", Entry.symlink "gollum_2015-03-01_09.log"),
    ("/var/log/gollum_2015-03-01_10.log", Entry.regular 100) ]

/-- The zero value of `File`, on which `Configure` is called. -/
def zeroProd : File :=
  { file := none, fileDir := "", fileName := "", fileExt := "", fileCreated := 0,
    rotateSizeByte := 0, batchSize := 0, batchTimeout := 0, rotateTimeoutMin := 0,
    rotateAtHour := 0, rotateAtMin := 0, rotate := false, compress := false,
    forceRotate := false }

/-- The base configuration and `MkdirAll` succeed; the log file lies in
`/var/log`. -/
def calmConfigureEnv : ConfigureEnv :=
  { baseConfigure := none, mkdirAll := fun _ => none, dir := fun _ => "/var/log" }

/-- A configuration with `Rotate: true` and `RotateSizeMB: 8796093022208`
(2^43). -/
def hugeSizeConf : PluginConfig :=
  { strings := fun key => if key = "File" then some "/var/log/gollum.log" else none
    ints := fun key => if key = "RotateSizeMB" then some 8796093022208 else none
    bools := fun key => if key = "Rotate" then some true else none }

/-- A configuration with `Rotate: true`, `RotateSizeMB: 1` and
`RotateAt: "00:00"`. -/
def midnightConf : PluginConfig :=
  { strings := fun key =>
      if key = "File" then some "/var/log/gollum.log"
      else if key = "RotateAt" then some "00:00" else none
    ints := fun key => if key = "RotateSizeMB" then some 1 else none
    bools := fun key => if key = "Rotate" then some true else none }

/-- The producer that `Configure` makes of `midnightConf`. -/
def midnightProd : File :=
  { sampleProd with file := none, fileCreated := 0, rotateSizeByte := 1048576,
                    rotateAtHour := 0, rotateAtMin := 0 }

/-- RotateAt 00:00; the open file was created at 23:59:00 on day 0. -/
def lateProd : File :=
  { sampleProd with
      file := some ⟨"/var/log/gollum_2015-03-01_23.log"⟩
      fileCreated := 23 * Hour + 59 * Minute
      rotateAtHour := 0
      rotateAtMin := 0 }

/-- The world at 00:00:30 on day 1; the open file holds 100 bytes. -/
def midnightWorld : World :=
  { now := Day + 30 * Second
    timestamp := "2015-03-02_00"
    stat := .ok 100
    readDirFails := false
    openFile := fun _ => none
    removeFails := false
    symlinkFails := false }

/-- The zero value of `Scribe`, on which `Configure` is called. -/
def zeroScribe : Scribe :=
  { bufferSizeMax := 0, appended := [], category := [], batchSize := 0, batchTimeoutSec := 0,
    bufferSizeKB := 0, defaultCategory := "" }

/-- A stream hash for the examples: the characters of the name read as digits
in base 2^21, which tells any two names apart. -/
def sampleStreamID (name : String) : MessageStreamID :=
  name.data.foldl (fun h c => h * 2097152 + (c.toNat + 1)) 0

/-- Every call outside `Scribe.go` succeeds. -/
def calmScribeEnv : ScribeEnv :=
  { GetStreamID := sampleStreamID
    WildcardStreamID := sampleStreamID "*"
    standardConfigure := none
    newSocket := fun _ => none }

/-- A configuration without any option set. -/
def emptySharedConf : SharedPluginConfig := { values := fun _ => none }

/-- A configuration that maps `console` to `web` and the wildcard to `misc`. -/
def categoryConf : SharedPluginConfig :=
  { values := fun key =>
      if key = "Category" then some (ConfValue.strMap [("console", "web"), ("*", "misc")])
      else none }

/-- The zero value of `LogConsumer`. -/
def zeroConsumer : LogConsumer :=
  { metric := "", lastCount := 0, lastCountWarn := 0, lastCountError := 0,
    timerArmed := false, stopped := false }

/-- An error entry whose formatted text is `disk full` and a linefeed, with one
ad-hoc field `Scope`. -/
def diskFullEntry : LogEntry Nat :=
  { formatted := .ok "disk full\n"
    Level := LogLevel.ErrorLevel
    timeString := "2015-03-01 10:20:00 +0000 UTC"
    Data := [("Scope", 3)] }

/-- An error entry with an ad-hoc field named `Level`. -/
def levelFieldEntry : LogEntry Nat :=
  { formatted := .ok "disk full\n"
    Level := LogLevel.ErrorLevel
    timeString := "2015-03-01 10:20:00 +0000 UTC"
    Data := [("Level", 7)] }

/-- `fmt.Sprintf("%v", n)` for a number. -/
def sprintNat (n : Nat) : String := toString n

/-- A batch of a fixed capacity in bytes, as a count of the bytes held: an
`Append` is refused when the message does not fit, a `Flush` empties it. -/
def byteBatch (capacity : Nat) : BatchOps Nat :=
  { Append := fun held message =>
      if held + message.data.length ≤ capacity then (true, held + message.data.length)
      else (false, held)
    Flush := fun _ _ => 0 }

/-- The world at 10:20 on day 0 on a file system without symbolic links:
`os.Symlink` fails, every other call succeeds. -/
def noSymlinkWorld : World := { calmWorld with symlinkFails := true }

/-- The world at 10:20 on day 0 in a directory where the producer may create
files and may not remove the entries of others: `os.Remove` of the existing
link fails, every other call succeeds. -/
def stickyDirWorld : World := { calmWorld with removeFails := true }

/-- The world at 10:20 on day 0 in which `os.OpenFile` is refused. -/
def deniedWorld : World :=
  { calmWorld with openFile := fun _ => some ⟨"permission denied"⟩ }

/-- A message of five bytes. -/
def helloMessage : CoreMessage := NewMessage "hello" 1

/-- A producer without an open file whose batch of capacity 8 holds 6 bytes. -/
def fullWriter : Writer Nat :=
  { prod := { sampleProd with file := none }, fs := [], batch := 6, calls := [], handed := [] }

/-! ## The library models on small inputs -/

example : ParseInt "07" 10 8 = (7, none) := by decide
example : ParseInt "-128" 10 8 = (-128, none) := by decide
example : ParseInt "128" 10 8 = (127, some .ErrRange) := by decide
example : ParseInt "1x" 10 8 = (0, some .ErrSyntax) := by decide
example : Split "23:59" ':' = ["23", "59"] := by decide
example : Split "2359" ':' = ["2359"] := by decide
example : Ext "/var/log/gollum.log" = ".log" := by decide
example : Ext "/var/lo.g/gollum" = "" := by decide
example : Base "/var/log/gollum.log" = "gollum.log" := by decide
example : Contains "gollum_2015.log" "m_20" = true := by decide

/-! ## Facts about the time model -/

theorem Duration.Minutes_eq (d : Int) : Duration.Minutes d = (d : ℚ) / 60000000000 := by
  have h : Int.tdiv d Minute * Minute + Int.tmod d Minute = d := by
    rw [mul_comm]; exact Int.tdiv_add_tmod d Minute
  have hM : ((Minute : Int) : ℚ) = 60000000000 := by norm_num [Minute, Second]
  have hq : ((Int.tdiv d Minute : Int) : ℚ) * 60000000000 + ((Int.tmod d Minute : Int) : ℚ)
      = (d : ℚ) := by
    rw [← hM]; exact_mod_cast h
  unfold Duration.Minutes
  rw [← hq]; field_simp; norm_num

theorem Duration.le_Minutes_iff (d : Int) (t : Int) :
    (t : ℚ) ≤ Duration.Minutes d ↔ t * Minute ≤ d := by
  rw [Duration.Minutes_eq, le_div_iff₀ (by norm_num)]
  have hM : (Minute : Int) = 60000000000 := by norm_num [Minute, Second]
  rw [hM]; exact_mod_cast Iff.rfl

theorem Duration.Minutes_neg_iff (d : Int) : Duration.Minutes d < 0 ↔ d < 0 := by
  rw [Duration.Minutes_eq, div_neg_iff]
  constructor
  · rintro (⟨_, h⟩ | ⟨h, _⟩)
    · norm_num at h
    · exact_mod_cast h
  · intro h; right; exact ⟨by exact_mod_cast h, by norm_num⟩

theorem Time.Sub_neg_iff (t u : Int) : Time.Sub t u < 0 ↔ t < u := by
  have h1 : minDuration = -9223372036854775808 := by norm_num [minDuration]
  have h2 : maxDuration = 9223372036854775807 := by norm_num [maxDuration]
  unfold Time.Sub
  rw [h1, h2]
  split_ifs with h h' <;> constructor <;> intro g <;> omega

/-! ## needsRotate -/

/-- The three time comparisons of `needsRotate` in integer form. -/
theorem needsRotate_eq (prod : File) (w : Probe) :
    needsRotate prod w =
      if prod.file = none then ((true, none), prod)
      else if !prod.rotate then ((false, none), prod)
      else if prod.forceRotate then ((true, none), prod)
      else
        match w.stat with
        | .error err => ((false, some err), prod)
        | .ok size =>
          if size ≥ prod.rotateSizeByte then ((true, none), prod)
          else if prod.rotateTimeoutMin * Minute ≤ Since w.now prod.fileCreated then
            ((true, none), prod)
          else if prod.rotateAtHour > -1 ∧ prod.rotateAtMin > -1
              ∧ prod.fileCreated < dateToday w.now prod.rotateAtHour prod.rotateAtMin then
            ((true, none), prod)
          else ((false, none), prod) := by
  unfold needsRotate
  simp only [ge_iff_le, Duration.le_Minutes_iff, Duration.Minutes_neg_iff, Time.Sub_neg_iff]

/-- C1 (counterexample): rotation disabled, a file open and `forceRotate` set;
`needsRotate` answers false although the claim requires true. -/
theorem needsRotate_disabled_force_counterexample :
    ({ sampleProd with rotate := false, forceRotate := true } : File).rotate = false ∧
    ¬ ((needsRotate { sampleProd with rotate := false, forceRotate := true }
          (probeAt (11 * Hour))).1.1 = true
        ↔ (({ sampleProd with rotate := false, forceRotate := true } : File).file = none
            ∨ ({ sampleProd with rotate := false, forceRotate := true } : File).forceRotate
                = true)) := by
  refine ⟨rfl, ?_⟩
  rw [needsRotate_eq]
  decide

/-- C1 (amended): with rotation disabled, `needsRotate` returns true exactly
when no file is open, whatever `forceRotate`, the file size, the file age and
the rotateAt settings are, and it returns no error. -/
theorem needsRotate_rotate_disabled (prod : File) (w : Probe) (h : prod.rotate = false) :
    ((needsRotate prod w).1.1 = true ↔ prod.file = none) ∧ (needsRotate prod w).1.2 = none := by
  unfold needsRotate
  by_cases hf : prod.file = none
  · simp [hf]
  · simp [hf, h]

/-- The amended C1 at a producer with rotation off, a file open and a roll
requested. -/
theorem needsRotate_rotate_disabled_witness :
    ({ sampleProd with rotate := false, forceRotate := true } : File).rotate = false ∧
    (((needsRotate { sampleProd with rotate := false, forceRotate := true }
          (probeAt (11 * Hour))).1.1 = true
        ↔ ({ sampleProd with rotate := false, forceRotate := true } : File).file = none) ∧
      (needsRotate { sampleProd with rotate := false, forceRotate := true }
          (probeAt (11 * Hour))).1.2 = none) :=
  ⟨rfl, needsRotate_rotate_disabled _ _ rfl⟩

/-- `needsRotate` returns the producer it was given. -/
theorem needsRotate_state (prod : File) (w : Probe) : (needsRotate prod w).2 = prod := by
  unfold needsRotate
  split_ifs <;> (try rfl) <;> split <;> (try split_ifs) <;> rfl

/-- With rotation on, a file open, no force, `Stat` succeeding and neither the
size nor the age trigger firing, `needsRotate` answers true exactly when the
file was created before today's `rotateAtHour:rotateAtMin`; the clock reading
`now` enters only through its date. -/
theorem needsRotate_clock_iff (prod : File) (w : Probe) (size : Int)
    (hrot : prod.rotate = true) (hfile : prod.file ≠ none) (hforce : prod.forceRotate = false)
    (hstat : w.stat = .ok size) (hsize : size < prod.rotateSizeByte)
    (hage : Duration.Minutes (Since w.now prod.fileCreated) < (prod.rotateTimeoutMin : ℚ))
    (hh : prod.rotateAtHour > -1) (hm : prod.rotateAtMin > -1) :
    (needsRotate prod w).1 = (true, none) ↔
      prod.fileCreated < dateToday w.now prod.rotateAtHour prod.rotateAtMin := by
  have hage2 : ¬ prod.rotateTimeoutMin * Minute ≤ Since w.now prod.fileCreated := by
    rw [← Duration.le_Minutes_iff]; exact not_le.mpr hage
  rw [needsRotate_eq]
  simp only [hfile, hrot, hforce, hstat, ge_iff_le, not_le.mpr hsize, hage2, hh, hm,
    if_false, true_and, Bool.not_true, Bool.false_eq_true]
  split_ifs with h <;> simp [h]

/-- Whenever the clock time has been crossed in the sense of the specification
(and it is a time of day), the file was created before today's occurrence of
it, so the code does rotate then. -/
theorem specCrossed_imp_before_today (hour min created now : Int)
    (h0 : 0 ≤ hour * Hour + min * Minute) (hc : specCrossed hour min created now) :
    created < dateToday now hour min := by
  obtain ⟨k, hk1, hk2⟩ := hc
  have hD : Day = 86400000000000 := by norm_num [Day, Hour, Minute, Second]
  simp only [dateToday, hD] at hk1 hk2 ⊢
  omega

/-- C2 (failing input): RotateAt 23:00, file created at 10:00, clock at 10:05 of
the same day, rotation on, a file open, no force, `Stat` reporting an empty
file, so neither the size nor the age trigger fires.  `needsRotate` answers
true although 23:00 has not been crossed since the file was created. -/
theorem needsRotate_fires_before_rotateAt :
    ({ sampleProd with rotateAtHour := 23, rotateAtMin := 0 } : File).rotate = true ∧
    ({ sampleProd with rotateAtHour := 23, rotateAtMin := 0 } : File).file ≠ none ∧
    ({ sampleProd with rotateAtHour := 23, rotateAtMin := 0 } : File).forceRotate = false ∧
    (probeAt (10 * Hour + 5 * Minute)).stat = .ok 0 ∧
    (0 : Int) < ({ sampleProd with rotateAtHour := 23, rotateAtMin := 0 } : File).rotateSizeByte ∧
    Since (probeAt (10 * Hour + 5 * Minute)).now
        ({ sampleProd with rotateAtHour := 23, rotateAtMin := 0 } : File).fileCreated
      = 5 * Minute ∧
    5 < ({ sampleProd with rotateAtHour := 23, rotateAtMin := 0 } : File).rotateTimeoutMin ∧
    (needsRotate { sampleProd with rotateAtHour := 23, rotateAtMin := 0 }
        (probeAt (10 * Hour + 5 * Minute))).1 = (true, none) ∧
    ¬ specCrossed 23 0 ({ sampleProd with rotateAtHour := 23, rotateAtMin := 0 } : File).fileCreated
        (probeAt (10 * Hour + 5 * Minute)).now := by
  refine ⟨rfl, by decide, rfl, rfl, by decide, by decide, by decide, ?_, ?_⟩
  · rw [needsRotate_eq]; decide
  · rintro ⟨k, hk1, hk2⟩
    have hD : Day = 86400000000000 := by norm_num [Day, Hour, Minute, Second]
    have hH : Hour = 3600000000000 := by norm_num [Hour, Minute, Second]
    have hM : Minute = 60000000000 := by norm_num [Minute, Second]
    simp only [sampleProd, probeAt, hD, hH, hM] at hk1 hk2
    omega

/-- C9: `needsRotate` leaves every field of the producer as it was, and a
second call with the same clock reading and the same `Stat` result returns the
same `(bool, error)` pair. -/
theorem needsRotate_idempotent (prod : File) (w : Probe) :
    (needsRotate prod w).2 = prod ∧
    (needsRotate (needsRotate prod w).2 w).1 = (needsRotate prod w).1 := by
  have h := needsRotate_state prod w
  exact ⟨h, by rw [h]⟩

/-! ## Facts about the file system -/

theorem FS.lookup_cons (fs : FS) (p q : String) (e : Entry) :
    FS.lookup ((q, e) :: fs) p = if p = q then some e else FS.lookup fs p := by
  unfold FS.lookup
  by_cases h : p = q
  · subst h; simp [List.lookup]
  · have hb : (p == q) = false := by simpa using h
    simp [List.lookup, hb, h]

theorem FS.lookup_erase_self (fs : FS) (p : String) : (fs.erase p).lookup p = none := by
  induction fs with
  | nil => rfl
  | cons e fs ih =>
    obtain ⟨q, v⟩ := e
    by_cases h : q = p
    · have : FS.erase ((q, v) :: fs) p = FS.erase fs p := by simp [FS.erase, List.filter, h]
      rw [this]; exact ih
    · have : FS.erase ((q, v) :: fs) p = (q, v) :: FS.erase fs p := by
        have hb : (q != p) = true := by simpa using h
        simp [FS.erase, List.filter, hb]
      rw [this, FS.lookup_cons, if_neg (Ne.symm h)]; exact ih

theorem FS.lookup_erase_ne (fs : FS) (p q : String) (hne : q ≠ p) :
    (fs.erase p).lookup q = fs.lookup q := by
  induction fs with
  | nil => rfl
  | cons e fs ih =>
    obtain ⟨k, v⟩ := e
    by_cases h : k = p
    · have : FS.erase ((k, v) :: fs) p = FS.erase fs p := by simp [FS.erase, List.filter, h]
      rw [this, ih, FS.lookup_cons, if_neg (by rw [h]; exact hne)]
    · have : FS.erase ((k, v) :: fs) p = (k, v) :: FS.erase fs p := by
        have hb : (k != p) = true := by simpa using h
        simp [FS.erase, List.filter, hb]
      rw [this, FS.lookup_cons, FS.lookup_cons, ih]

theorem FS.lookup_remove_self (fs : FS) (p : String) :
    (fs.remove p false).lookup p = none := by
  unfold FS.remove
  simp only [Bool.false_eq_true, if_false]
  exact FS.lookup_erase_self fs p

theorem FS.lookup_remove_ne (fs : FS) (p q : String) (fails : Bool) (hne : q ≠ p) :
    (fs.remove p fails).lookup q = fs.lookup q := by
  unfold FS.remove
  cases fails
  · simp only [Bool.false_eq_true, if_false]; exact FS.lookup_erase_ne fs p q hne
  · rfl

theorem FS.lookup_symlink_after_remove (fs : FS) (target p : String) :
    ((fs.remove p false).symlink target p false).lookup p = some (Entry.symlink target) := by
  unfold FS.symlink FS.remove
  simp only [Bool.false_eq_true, if_false]
  rw [FS.lookup_erase_self]
  simp [FS.lookup_cons]

/-! ## openLog -/

/-- When `needsRotate` answers true, `openLog` goes on to name and open a file. -/
theorem openLog_rotating (prod : File) (fs : FS) (w : World)
    (h : (needsRotate prod { now := w.now, stat := w.stat }).1.1 = true) :
    openLog prod fs w =
      match w.openFile (prod.fileDir ++ "/" ++
          logFileNameOf prod (if w.readDirFails then [] else fs.ReadDir prod.fileDir)
            w.timestamp) with
      | some err =>
        { err := some err, prod := { prod with file := none, forceRotate := false }, fs := fs,
          spawned := prod.file }
      | none =>
        { err := none,
          prod := { prod with
            file := some ⟨prod.fileDir ++ "/" ++
              logFileNameOf prod (if w.readDirFails then [] else fs.ReadDir prod.fileDir)
                w.timestamp⟩
            fileCreated := w.now
            forceRotate := false },
          fs :=
            if prod.rotate then
              ((fs.create (prod.fileDir ++ "/" ++
                  logFileNameOf prod (if w.readDirFails then [] else fs.ReadDir prod.fileDir)
                    w.timestamp)).remove
                (prod.fileDir ++ "/" ++ prod.fileName ++ "_current") w.removeFails).symlink
                (logFileNameOf prod (if w.readDirFails then [] else fs.ReadDir prod.fileDir)
                  w.timestamp)
                (prod.fileDir ++ "/" ++ prod.fileName ++ "_current") w.symlinkFails
            else fs.create (prod.fileDir ++ "/" ++
                  logFileNameOf prod (if w.readDirFails then [] else fs.ReadDir prod.fileDir)
                    w.timestamp),
          spawned := prod.file } := by
  have hs := needsRotate_state prod { now := w.now, stat := w.stat }
  unfold openLog
  revert h hs
  generalize needsRotate prod { now := w.now, stat := w.stat } = r
  obtain ⟨⟨b, e⟩, p⟩ := r
  intro h hs
  simp only at h hs
  subst h hs
  rfl

/-- When `needsRotate` answers false, `openLog` returns its error and touches
nothing. -/
theorem openLog_idle (prod : File) (fs : FS) (w : World)
    (h : (needsRotate prod { now := w.now, stat := w.stat }).1.1 = false) :
    openLog prod fs w =
      { err := (needsRotate prod { now := w.now, stat := w.stat }).1.2, prod := prod, fs := fs,
        spawned := none } := by
  have hs := needsRotate_state prod { now := w.now, stat := w.stat }
  unfold openLog
  revert h hs
  generalize needsRotate prod { now := w.now, stat := w.stat } = r
  obtain ⟨⟨b, e⟩, p⟩ := r
  intro h hs
  simp only at h hs
  subst h hs
  rfl

/-- C6 (counterexample): two rotations that return no error and leave no link
to the open file.  At the first open on a file system without symbolic links
`os.Symlink` fails and no entry `gollum_current` exists afterwards.  At a roll
in a directory where the producer may not remove the link of an earlier hour,
`os.Remove` fails, then `os.Symlink` finds the path taken, and `gollum_current`
still points to the file of the earlier hour.  `openLog` discards both
errors. -/
theorem openLog_symlink_missing_or_stale_counterexample :
    ({ sampleProd with file := none } : File).rotate = true ∧
    (needsRotate { sampleProd with file := none }
      { now := noSymlinkWorld.now, stat := noSymlinkWorld.stat }).1.1 = true ∧
    (openLog { sampleProd with file := none } [] noSymlinkWorld).err = none ∧
    (openLog { sampleProd with file := none } [] noSymlinkWorld).prod.file
      = some ⟨"/var/log/gollum_2015-03-01_10.log"⟩ ∧
    (openLog { sampleProd with file := none } [] noSymlinkWorld).fs.lookup
      "/var/log/gollum_current" = none ∧
    rollingProd.rotate = true ∧
    (needsRotate rollingProd
      { now := stickyDirWorld.now, stat := stickyDirWorld.stat }).1.1 = true ∧
    (openLog rollingProd linkedFS stickyDirWorld).err = none ∧
    (openLog rollingProd linkedFS stickyDirWorld).prod.file
      = some ⟨"/var/log/gollum_2015-03-01_10_1.log"⟩ ∧
    (openLog rollingProd linkedFS stickyDirWorld).fs.lookup "/var/log/gollum_current"
      = some (Entry.symlink "gollum_2015-03-01_09.log") := by
  simp only [openLog, needsRotate_eq]
  decide

/-- C6 (amended): with rotation enabled, after an `openLog` that performed a
rotation and returned no error, and in which `os.Remove` left no entry at
`dir/<name>_current` and `os.Symlink` did not fail, the producer's open file is
`dir/<log file name>` and the entry `dir/<name>_current` is a symbolic link
whose target is that log file name, whatever was at the link's path before. -/
theorem openLog_current_symlink (prod : File) (fs : FS) (w : World)
    (hrot : prod.rotate = true)
    (hneeds : (needsRotate prod { now := w.now, stat := w.stat }).1.1 = true)
    (herr : (openLog prod fs w).err = none)
    (hremove : w.removeFails = false) (hsymlink : w.symlinkFails = false) :
    (openLog prod fs w).prod.file
      = some ⟨prod.fileDir ++ "/" ++
          logFileNameOf prod (if w.readDirFails then [] else fs.ReadDir prod.fileDir)
            w.timestamp⟩ ∧
    (openLog prod fs w).fs.lookup (prod.fileDir ++ "/" ++ prod.fileName ++ "_current")
      = some (Entry.symlink
          (logFileNameOf prod (if w.readDirFails then [] else fs.ReadDir prod.fileDir)
            w.timestamp)) := by
  rw [openLog_rotating prod fs w hneeds] at herr ⊢
  cases hopen : w.openFile (prod.fileDir ++ "/" ++
      logFileNameOf prod (if w.readDirFails then [] else fs.ReadDir prod.fileDir) w.timestamp) with
  | some err => rw [hopen] at herr; simp at herr
  | none =>
    simp only [hrot, if_true, hremove, hsymlink]
    exact ⟨trivial, FS.lookup_symlink_after_remove _ _ _⟩

/-- The amended C6 at a roll in a directory that holds the open file and an
older link, every system call succeeding. -/
theorem openLog_current_symlink_witness :
    rollingProd.rotate = true ∧
    (needsRotate rollingProd { now := calmWorld.now, stat := calmWorld.stat }).1.1 = true ∧
    (openLog rollingProd linkedFS calmWorld).err = none ∧
    calmWorld.removeFails = false ∧ calmWorld.symlinkFails = false ∧
    (openLog rollingProd linkedFS calmWorld).prod.file
      = some ⟨"/var/log/gollum_2015-03-01_10_1.log"⟩ ∧
    (openLog rollingProd linkedFS calmWorld).fs.lookup "/var/log/gollum_current"
      = some (Entry.symlink "gollum_2015-03-01_10_1.log") :=
  have h1 : (needsRotate rollingProd { now := calmWorld.now, stat := calmWorld.stat }).1.1
      = true := by rw [needsRotate_eq]; decide
  have h2 : (openLog rollingProd linkedFS calmWorld).err = none := by
    simp only [openLog, needsRotate_eq]; decide
  ⟨rfl, h1, h2, rfl, rfl, openLog_current_symlink rollingProd linkedFS calmWorld rfl h1 h2 rfl rfl⟩

theorem countSignature_foldl (files : List String) (signature : String) (n : Nat) :
    files.foldl (fun counter name => if Contains name signature then counter + 1 else counter) n
      = n + (files.filter (fun name => Contains name signature)).length := by
  induction files generalizing n with
  | nil => simp
  | cons f fs ih =>
    rw [List.foldl_cons, ih]
    by_cases h : Contains f signature = true
    · simp [List.filter, h]; omega
    · simp [List.filter, h]

/-- The counting loop returns the number of names that contain the signature. -/
theorem countSignature_eq (files : List String) (signature : String) :
    countSignature files signature
      = (files.filter (fun name => Contains name signature)).length := by
  unfold countSignature
  rw [countSignature_foldl]; simp

/-- C7: when `openLog` goes on to open a file, the path it passes to
`os.OpenFile` is `dir/name.ext` with rotation disabled; with rotation enabled,
signature `name_ts` and `c` the number of names in the directory listing that
contain the signature, it is `dir/signature.ext` if `c = 0` and
`dir/signature_<c>.ext` otherwise.  The path is the one whose `OpenFile` result
decides the outcome, and it is the name of the open file on success. -/
theorem openLog_file_name (prod : File) (fs : FS) (w : World) (path : String)
    (hneeds : (needsRotate prod { now := w.now, stat := w.stat }).1.1 = true)
    (hpath : path =
      if prod.rotate = false then prod.fileDir ++ "/" ++ (prod.fileName ++ prod.fileExt)
      else if ((if w.readDirFails then [] else fs.ReadDir prod.fileDir).filter
          (fun name => Contains name (prod.fileName ++ "_" ++ w.timestamp))).length = 0 then
        prod.fileDir ++ "/" ++ (prod.fileName ++ "_" ++ w.timestamp ++ prod.fileExt)
      else
        prod.fileDir ++ "/" ++ (prod.fileName ++ "_" ++ w.timestamp ++ "_" ++
          toString ((if w.readDirFails then [] else fs.ReadDir prod.fileDir).filter
            (fun name => Contains name (prod.fileName ++ "_" ++ w.timestamp))).length
          ++ prod.fileExt)) :
    (w.openFile path = none →
      (openLog prod fs w).err = none ∧ (openLog prod fs w).prod.file = some ⟨path⟩) ∧
    (∀ err, w.openFile path = some err →
      (openLog prod fs w).err = some err ∧ (openLog prod fs w).prod.file = none) := by
  have hname : prod.fileDir ++ "/" ++
      logFileNameOf prod (if w.readDirFails then [] else fs.ReadDir prod.fileDir) w.timestamp
      = path := by
    rw [hpath]
    unfold logFileNameOf
    simp only [countSignature_eq]
    cases prod.rotate
    · simp
    · simp only [Bool.not_true, Bool.false_eq_true, if_false, Bool.true_eq_false]
      split_ifs <;> rfl
  rw [openLog_rotating prod fs w hneeds, hname]
  constructor
  · intro h; rw [h]; exact ⟨rfl, rfl⟩
  · intro err h; rw [h]; exact ⟨rfl, rfl⟩

/-- C7 at a roll in a directory with one file of the current hour. -/
theorem openLog_file_name_witness :
    (needsRotate rollingProd { now := calmWorld.now, stat := calmWorld.stat }).1.1 = true ∧
    (calmWorld.openFile "/var/log/gollum_2015-03-01_10_1.log" = none →
      (openLog rollingProd linkedFS calmWorld).err = none ∧
      (openLog rollingProd linkedFS calmWorld).prod.file
        = some ⟨"/var/log/gollum_2015-03-01_10_1.log"⟩) ∧
    (∀ err, calmWorld.openFile "/var/log/gollum_2015-03-01_10_1.log" = some err →
      (openLog rollingProd linkedFS calmWorld).err = some err ∧
      (openLog rollingProd linkedFS calmWorld).prod.file = none) :=
  have h1 : (needsRotate rollingProd { now := calmWorld.now, stat := calmWorld.stat }).1.1
      = true := by rw [needsRotate_eq]; decide
  ⟨h1, openLog_file_name rollingProd linkedFS calmWorld "/var/log/gollum_2015-03-01_10_1.log"
    h1 (by decide)⟩

/-! ## Configure -/

theorem extRev_length_le (l acc : List Char) :
    (extRev l acc).length ≤ (l.takeWhile (fun c => c != '/')).length + acc.length := by
  induction l generalizing acc with
  | nil => simp [extRev]
  | cons c cs ih =>
    unfold extRev
    by_cases h1 : c = '/'
    · simp [h1]
    · have hb : (c != '/') = true := by simpa using h1
      by_cases h2 : c = '.'
      · simp [h1, h2, List.takeWhile]
        omega
      · simp only [h1, h2, if_false, List.takeWhile, hb]
        have := ih (c :: acc)
        simp only [List.length_cons] at this ⊢
        omega

theorem extRev_ne_nil_head (l acc : List Char) (h : extRev l acc ≠ []) :
    ∃ c cs, l = c :: cs ∧ c ≠ '/' := by
  cases l with
  | nil => simp [extRev] at h
  | cons c cs =>
    refine ⟨c, cs, rfl, ?_⟩
    intro hc
    simp [extRev, hc] at h

/-- The extension is never longer than the base name, so the slice that makes
`fileName` in `Configure` does not panic. -/
theorem Ext_length_le_Base (path : String) :
    (Ext path).data.length ≤ (Base path).data.length := by
  by_cases hE : extRev path.data.reverse [] = []
  · simp [Ext, hE]
  · obtain ⟨c, cs, hl, hc⟩ := extRev_ne_nil_head _ _ hE
    have hb : (c != '/') = true := by simpa using hc
    have hb2 : (c == '/') = false := by simpa using hc
    have hne : path.data ≠ [] := by
      intro h0; rw [h0] at hl; simp at hl
    have hlen := extRev_length_le path.data.reverse []
    unfold Base Ext
    simp only [hne, if_false]
    rw [hl] at hlen ⊢
    simp only [List.dropWhile, hb2, List.takeWhile, hb, List.reverse_eq_nil_iff,
      reduceCtorEq, if_false, List.length_reverse, List.length_nil, Nat.add_zero] at hlen ⊢
    exact hlen

theorem dropSuffixLen_Base_Ext (path : String) :
    dropSuffixLen (Base path) (Ext path).data.length
      = .ok (String.mk ((Base path).data.take
          ((Base path).data.length - (Ext path).data.length))) := by
  unfold dropSuffixLen
  rw [if_pos (Ext_length_le_Base path)]

/-- When the base configuration and `MkdirAll` succeed and `RotateAt` is empty,
`Configure` returns nil and leaves the clock setting at -1, -1. -/
theorem Configure_rotateAt_empty (prod : File) (conf : PluginConfig) (env : ConfigureEnv)
    (hb : env.baseConfigure = none)
    (hm : env.mkdirAll (env.dir (conf.GetString "File" "/var/prod/gollum.log")) = none)
    (hra : conf.GetString "RotateAt" "" = "") :
    ∃ prod1, Configure prod conf env = .ok (none, prod1) ∧
      prod1.rotateAtHour = -1 ∧ prod1.rotateAtMin = -1 := by
  unfold Configure
  simp only [hb, dropSuffixLen_Base_Ext, hm, hra, ne_eq, not_true_eq_false, if_false]
  exact ⟨_, rfl, rfl, rfl⟩

/-- When the base configuration and `MkdirAll` succeed and `RotateAt` splits
into at least two pieces at the colon, `Configure` returns nil and the clock
setting holds what `ParseInt` makes of the first two pieces. -/
theorem Configure_rotateAt_split (prod : File) (conf : PluginConfig) (env : ConfigureEnv)
    (p0 p1 : String) (rest : List String)
    (hb : env.baseConfigure = none)
    (hm : env.mkdirAll (env.dir (conf.GetString "File" "/var/prod/gollum.log")) = none)
    (hra : conf.GetString "RotateAt" "" ≠ "")
    (hs : Split (conf.GetString "RotateAt" "") ':' = p0 :: p1 :: rest) :
    ∃ prod1, Configure prod conf env = .ok (none, prod1) ∧
      prod1.rotateAtHour = (ParseInt p0 10 8).1 ∧ prod1.rotateAtMin = (ParseInt p1 10 8).1 := by
  unfold Configure
  simp only [hb, dropSuffixLen_Base_Ext, hm, hra, ne_eq, not_false_eq_true, if_true, hs]
  exact ⟨_, rfl, rfl, rfl⟩

/-- Every successful `Configure` leaves `rotateSizeByte` at `RotateSizeMB << 20`
computed in `int64`. -/
theorem Configure_rotateSizeByte (prod : File) (conf : PluginConfig) (env : ConfigureEnv)
    (prod1 : File) (hc : Configure prod conf env = .ok (none, prod1)) :
    prod1.rotateSizeByte = wrapInt64 (conf.GetInt "RotateSizeMB" 1024 * 2 ^ 20) := by
  unfold Configure at hc
  cases hb : env.baseConfigure with
  | some e => simp [hb] at hc
  | none =>
  simp only [hb, dropSuffixLen_Base_Ext] at hc
  split at hc
  · injection hc with hc; injection hc with _ hc; rw [← hc]
  · split at hc
    · split at hc
      · injection hc with hc; injection hc with _ hc; rw [← hc]
      · exact absurd hc (by simp)
    · injection hc with hc; injection hc with _ hc; rw [← hc]

theorem wrapInt64_of_range (x : Int) (h1 : -(2 ^ 63) ≤ x) (h2 : x < 2 ^ 63) :
    wrapInt64 x = x := by
  unfold wrapInt64
  have e1 : (2 : Int) ^ 63 = 9223372036854775808 := by norm_num
  have e2 : (2 : Int) ^ 64 = 18446744073709551616 := by norm_num
  rw [e1, e2] at *
  omega

/-- C8 (counterexample): with `RotateSizeMB` = 2^43 `Configure` succeeds and
`rotateSizeByte` is -2^63, not `RotateSizeMB` × 2^20. -/
theorem Configure_rotateSizeByte_overflow_counterexample :
    (Configure zeroProd hugeSizeConf calmConfigureEnv).map
        (fun r => (r.1, r.2.rotateSizeByte)) = .ok (none, -9223372036854775808) ∧
    ¬ ((-9223372036854775808 : Int) = hugeSizeConf.GetInt "RotateSizeMB" 1024 * 2 ^ 20) := by
  decide

/-- C8 (amended): with rotation enabled and a file open, `needsRotate` returns
true and no error whenever `forceRotate` is set, or `Stat` succeeds and the
size is at least `rotateSizeByte`, or `Stat` succeeds and the age since
`fileCreated` in minutes is at least `rotateTimeoutMin`; and after a successful
`Configure` with -2^43 ≤ `RotateSizeMB` < 2^43, `rotateSizeByte` equals
`RotateSizeMB` × 2^20. -/
theorem needsRotate_triggers_suffice (prod : File) (w : Probe)
    (prod0 : File) (conf : PluginConfig) (env : ConfigureEnv) (prod1 : File)
    (hrot : prod.rotate = true) (hfile : prod.file ≠ none) :
    (prod.forceRotate = true → (needsRotate prod w).1 = (true, none)) ∧
    (∀ size, w.stat = .ok size → size ≥ prod.rotateSizeByte →
      (needsRotate prod w).1 = (true, none)) ∧
    (∀ size, w.stat = .ok size →
      Duration.Minutes (Since w.now prod.fileCreated) ≥ (prod.rotateTimeoutMin : ℚ) →
      (needsRotate prod w).1 = (true, none)) ∧
    (Configure prod0 conf env = .ok (none, prod1) →
      -(2 ^ 43) ≤ conf.GetInt "RotateSizeMB" 1024 → conf.GetInt "RotateSizeMB" 1024 < 2 ^ 43 →
      prod1.rotateSizeByte = conf.GetInt "RotateSizeMB" 1024 * 2 ^ 20) := by
  refine ⟨?_, ?_, ?_, ?_⟩
  · intro hf
    unfold needsRotate
    simp [hfile, hrot, hf]
  · intro size hs hsz
    unfold needsRotate
    by_cases hf : prod.forceRotate = true
    · simp [hfile, hrot, hf]
    · simp only [hfile, hrot, hf, hs, if_false, Bool.not_true, Bool.false_eq_true]
      rw [if_pos hsz]
  · intro size hs hage
    unfold needsRotate
    by_cases hf : prod.forceRotate = true
    · simp [hfile, hrot, hf]
    · simp only [hfile, hrot, hf, hs, if_false, Bool.not_true, Bool.false_eq_true]
      by_cases hsz : size ≥ prod.rotateSizeByte
      · rw [if_pos hsz]
      · rw [if_neg hsz, if_pos hage]
  · intro hc h1 h2
    rw [Configure_rotateSizeByte prod0 conf env prod1 hc]
    apply wrapInt64_of_range
    · have e : (2 : Int) ^ 63 = 2 ^ 43 * 2 ^ 20 := by norm_num
      rw [e]; nlinarith
    · have e : (2 : Int) ^ 63 = 2 ^ 43 * 2 ^ 20 := by norm_num
      rw [e]; nlinarith

/-- The amended C8 at a producer with a roll requested and at the
configuration `RotateSizeMB: 1`. -/
theorem needsRotate_triggers_suffice_witness :
    rollingProd.rotate = true ∧ rollingProd.file ≠ none ∧
    (needsRotate rollingProd (probeAt (11 * Hour))).1 = (true, none) ∧
    Configure zeroProd midnightConf calmConfigureEnv = .ok (none, midnightProd) ∧
    midnightProd.rotateSizeByte = 1 * 2 ^ 20 :=
  have h := needsRotate_triggers_suffice rollingProd (probeAt (11 * Hour)) zeroProd midnightConf
    calmConfigureEnv midnightProd rfl (by decide)
  ⟨rfl, by decide, h.1 rfl, by decide, h.2.2.2 (by decide) (by decide) (by decide)⟩

/-- `ParseInt(s, 10, 8)` reads two decimal digits as their number. -/
theorem ParseInt_twoDigits :
    ∀ n < 100, ParseInt (twoDigits n) 10 8 = ((n : Int), none) := by
  decide

/-- `Split` cuts `HH:MM` into `HH` and `MM`. -/
theorem Split_clockString :
    ∀ h < 24, ∀ m < 60, Split (clockString h m) ':' = [twoDigits h, twoDigits m] := by
  decide

theorem clockString_ne_empty (h m : Nat) : clockString h m ≠ "" := by
  intro e
  have := congrArg String.data e
  simp [clockString, twoDigits, String.data_append] at this

/-- C10: when the base configuration and `MkdirAll` succeed, `Configure` returns
nil and (a) with `RotateAt` empty it leaves `rotateAtHour = rotateAtMin = -1`,
and then the clock trigger never fires: in every state with these two values
where no other trigger fires, `needsRotate` answers false, whenever the file
was created and whatever the clock reads; (b) with `RotateAt` of the form
`HH:MM`, `HH` in 00..23 and `MM` in 00..59, it sets `rotateAtHour = HH` and
`rotateAtMin = MM`. -/
theorem Configure_rotateAt (prod : File) (conf : PluginConfig) (env : ConfigureEnv)
    (hb : env.baseConfigure = none)
    (hm : env.mkdirAll (env.dir (conf.GetString "File" "/var/prod/gollum.log")) = none) :
    (conf.GetString "RotateAt" "" = "" →
      ∃ prod1, Configure prod conf env = .ok (none, prod1) ∧
        prod1.rotateAtHour = -1 ∧ prod1.rotateAtMin = -1 ∧
        ∀ (s : File) (w : Probe) (size : Int),
          s.rotateAtHour = prod1.rotateAtHour → s.rotateAtMin = prod1.rotateAtMin →
          s.file ≠ none → s.forceRotate = false → w.stat = .ok size →
          size < s.rotateSizeByte →
          Duration.Minutes (Since w.now s.fileCreated) < (s.rotateTimeoutMin : ℚ) →
          (needsRotate s w).1 = (false, none)) ∧
    (∀ hour min : Nat, hour < 24 → min < 60 →
      conf.GetString "RotateAt" "" = clockString hour min →
      ∃ prod1, Configure prod conf env = .ok (none, prod1) ∧
        prod1.rotateAtHour = (hour : Int) ∧ prod1.rotateAtMin = (min : Int)) := by
  constructor
  · intro hra
    obtain ⟨prod1, hc, h1, h2⟩ := Configure_rotateAt_empty prod conf env hb hm hra
    refine ⟨prod1, hc, h1, h2, ?_⟩
    intro s w size e1 e2 hfile hforce hstat hsize hage
    rw [h1] at e1
    rw [h2] at e2
    unfold needsRotate
    simp only [hfile, hforce, hstat, if_false, ge_iff_le, not_le.mpr hsize, not_le.mpr hage,
      e1, e2, gt_iff_lt, lt_self_iff_false, false_and, Bool.false_eq_true]
    split_ifs <;> rfl
  · intro hour min hh hmin hra
    have hne : conf.GetString "RotateAt" "" ≠ "" := by
      rw [hra]; exact clockString_ne_empty hour min
    have hs : Split (conf.GetString "RotateAt" "") ':' = twoDigits hour :: twoDigits min :: [] := by
      rw [hra]; exact Split_clockString hour hh min hmin
    obtain ⟨prod1, hc, h1, h2⟩ :=
      Configure_rotateAt_split prod conf env _ _ _ hb hm hne hs
    refine ⟨prod1, hc, ?_, ?_⟩
    · rw [h1, ParseInt_twoDigits hour (by omega)]
    · rw [h2, ParseInt_twoDigits min (by omega)]

/-- C10 at the configuration `RotateAt: "00:00"`. -/
theorem Configure_rotateAt_witness :
    calmConfigureEnv.baseConfigure = none ∧
    calmConfigureEnv.mkdirAll
      (calmConfigureEnv.dir (midnightConf.GetString "File" "/var/prod/gollum.log")) = none ∧
    midnightConf.GetString "RotateAt" "" = clockString 0 0 ∧
    ∃ prod1, Configure zeroProd midnightConf calmConfigureEnv = .ok (none, prod1) ∧
      prod1.rotateAtHour = 0 ∧ prod1.rotateAtMin = 0 :=
  ⟨rfl, rfl, by decide,
    (Configure_rotateAt zeroProd midnightConf calmConfigureEnv rfl rfl).2 0 0
      (by decide) (by decide) (by decide)⟩

/-! ## compressAndCloseLog -/

theorem FS.lookup_write (fs : FS) (p q : String) (n : Nat) :
    (fs.write p n).lookup q
      = if q = p then (fs.lookup q).map (fun _ => Entry.regular n) else fs.lookup q := by
  induction fs with
  | nil => simp [FS.write, FS.lookup, List.lookup]
  | cons e fs ih =>
    obtain ⟨k, v⟩ := e
    have hw : FS.write ((k, v) :: fs) p n
        = (if k = p then (k, Entry.regular n) else (k, v)) :: FS.write fs p n := by
      simp [FS.write]
    rw [hw]
    by_cases hk : k = p
    · rw [if_pos hk, FS.lookup_cons, FS.lookup_cons, ih]
      by_cases hq : q = k
      · simp [hq, hk]
      · simp [hq]
    · rw [if_neg hk, FS.lookup_cons, FS.lookup_cons, ih]
      by_cases hq : q = k
      · simp [hq, hk]
      · simp [hq]

theorem FS.lookup_truncate (fs : FS) (p q : String) :
    (fs.truncate p).lookup q = if q = p then some (Entry.regular 0) else fs.lookup q := by
  unfold FS.truncate
  rw [FS.lookup_cons]
  by_cases h : q = p
  · simp [h]
  · simp [h, FS.lookup_erase_ne fs p q h]

/-- The copy loop always ends, with end-of-file or with another error. -/
theorem copyChunks_total (chunkErr : Nat → Option GoError) (full i : Nat) :
    copyChunks chunkErr full i = CopyEnd.eof ∨
      ∃ err, copyChunks chunkErr full i = CopyEnd.failed err := by
  induction full generalizing i with
  | zero => unfold copyChunks; cases chunkErr i <;> simp
  | succ n ih => unfold copyChunks; cases chunkErr i <;> simp [ih]

/-- Away from the defect shown for C5: when the target path differs from the
source path, a copy loop that ends with end-of-file leaves the `.gz` in place
and the source removed, and a copy loop that ends with another error leaves the
`.gz` removed and the source as it was, provided the final `os.Remove` does
not fail. -/
theorem compressAndCloseLog_outcome (prod : File) (src : OsFile) (fs fs1 : FS)
    (cenv : CompressEnv) (target : String)
    (hopen : compressOpen prod src fs cenv = .ok (some (target, fs1)))
    (hne : target ≠ src.name) (hremove : cenv.removeFails = false) :
    compressAndCloseLog prod src fs cenv = .ok (compressCopy src target fs1 cenv) ∧
    (copyChunks cenv.chunkErr (fs1.size src.name / 2 ^ 20) 0 = CopyEnd.eof →
      (compressCopy src target fs1 cenv).lookup src.name = none ∧
      (compressCopy src target fs1 cenv).lookup target = some (Entry.regular cenv.gzSize)) ∧
    (∀ err, copyChunks cenv.chunkErr (fs1.size src.name / 2 ^ 20) 0 = CopyEnd.failed err →
      (compressCopy src target fs1 cenv).lookup target = none ∧
      (compressCopy src target fs1 cenv).lookup src.name = fs.lookup src.name) := by
  have hfs1 : fs1 = fs.truncate target := by
    unfold compressOpen at hopen
    cases hc : prod.compress with
    | false => simp [hc] at hopen
    | true =>
      simp only [hc, Bool.not_true, Bool.false_eq_true, if_false] at hopen
      cases hd : dropSuffixLen (Base src.name) prod.fileExt.data.length with
      | error p => rw [hd] at hopen; simp at hopen
      | ok sourceBase =>
        rw [hd] at hopen
        cases ho : cenv.openTarget with
        | some e => rw [ho] at hopen; simp at hopen
        | none =>
          rw [ho] at hopen
          simp only [Except.ok.injEq, Option.some.injEq, Prod.mk.injEq] at hopen
          rw [← hopen.2, ← hopen.1]
  refine ⟨?_, ?_, ?_⟩
  · unfold compressAndCloseLog; rw [hopen]
  · intro heof
    unfold compressCopy
    simp only [heof, hremove]
    refine ⟨FS.lookup_remove_self _ _, ?_⟩
    rw [FS.lookup_remove_ne _ _ _ _ hne, FS.lookup_write, if_pos rfl, hfs1, FS.lookup_truncate,
      if_pos rfl]
    rfl
  · intro err herr
    unfold compressCopy
    simp only [herr, hremove]
    refine ⟨FS.lookup_remove_self _ _, ?_⟩
    rw [FS.lookup_remove_ne _ _ _ _ (Ne.symm hne), FS.lookup_write, if_neg (Ne.symm hne), hfs1,
      FS.lookup_truncate, if_neg (Ne.symm hne)]

/-! ## openLog and the compressor at concrete inputs -/

/-- The scenario of the specification: RotateAt 00:00, file created at
23:59:00.  The append at 00:00:30 rotates to the file of the new hour; an
`openLog` right after it finds nothing to rotate and keeps that file. -/
theorem openLog_midnight_scenario :
    (openLog lateProd [] midnightWorld).err = none ∧
    (openLog lateProd [] midnightWorld).prod.file
      = some ⟨"/var/log/gollum_2015-03-02_00.log"⟩ ∧
    (openLog lateProd [] midnightWorld).spawned
      = some ⟨"/var/log/gollum_2015-03-01_23.log"⟩ ∧
    (needsRotate (openLog lateProd [] midnightWorld).prod
        { now := midnightWorld.now, stat := .ok 0 }).1 = (false, none) ∧
    (openLog (openLog lateProd [] midnightWorld).prod (openLog lateProd [] midnightWorld).fs
        { midnightWorld with stat := .ok 0 }).prod.file
      = some ⟨"/var/log/gollum_2015-03-02_00.log"⟩ ∧
    (openLog (openLog lateProd [] midnightWorld).prod (openLog lateProd [] midnightWorld).fs
        { midnightWorld with stat := .ok 0 }).spawned = none := by
  simp only [openLog, needsRotate_eq]
  decide


/-- C3 (failing input): RotateAt 23:00 and the default thresholds; the producer
opens its first file at 10:20.  The rotation succeeds and clears `forceRotate`,
yet `needsRotate` evaluated at once on the new, empty file answers true, and
the next `openLog` at the same instant rotates again, to a second file. -/
theorem openLog_rotates_twice_before_rotateAt :
    (openLog { sampleProd with file := none, rotateAtHour := 23, rotateAtMin := 0 } []
        calmWorld).err = none ∧
    (openLog { sampleProd with file := none, rotateAtHour := 23, rotateAtMin := 0 } []
        calmWorld).prod.file = some ⟨"/var/log/gollum_2015-03-01_10.log"⟩ ∧
    (openLog { sampleProd with file := none, rotateAtHour := 23, rotateAtMin := 0 } []
        calmWorld).prod.forceRotate = false ∧
    (0 : Int) < sampleProd.rotateSizeByte ∧ (0 : Int) < sampleProd.rotateTimeoutMin ∧
    (needsRotate
        (openLog { sampleProd with file := none, rotateAtHour := 23, rotateAtMin := 0 } []
          calmWorld).prod
        { now := calmWorld.now, stat := .ok 0 }).1 = (true, none) ∧
    (openLog
        (openLog { sampleProd with file := none, rotateAtHour := 23, rotateAtMin := 0 } []
          calmWorld).prod
        (openLog { sampleProd with file := none, rotateAtHour := 23, rotateAtMin := 0 } []
          calmWorld).fs
        calmWorld).prod.file = some ⟨"/var/log/gollum_2015-03-01_10_1.log"⟩ := by
  simp only [openLog, needsRotate_eq]
  decide

/-- C4 (failing input): four rolls within one hour with `Compress` on.  The
schedule is enabled and leads to `overlapSys`, where `gollum_2015-03-01_10_3.log`
is open.  The next roll counts three entries with the signature, so it hands
the open file to a compressor and opens the same path again for appending; the
compressor then removes the file the producer is writing to. -/
theorem rotateLog_reopens_file_handed_to_compressor :
    (freshSys.run overlapSchedule).map (fun s => (s.prod, s.fs, s.jobs))
      = some (overlapSys.prod, overlapSys.fs, overlapSys.jobs) ∧
    overlapSys.prod.rotate = true ∧
    (rotateLog overlapSys.prod overlapSys.fs calmWorld).err = none ∧
    (rotateLog overlapSys.prod overlapSys.fs calmWorld).spawned
      = some ⟨"/var/log/gollum_2015-03-01_10_3.log"⟩ ∧
    (rotateLog overlapSys.prod overlapSys.fs calmWorld).prod.file
      = some ⟨"/var/log/gollum_2015-03-01_10_3.log"⟩ ∧
    ((overlapSys.run [.rotateLog calmWorld]).map (fun s => s.running))
      = some [⟨"/var/log/gollum_2015-03-01_10_3.log"⟩] ∧
    ((overlapSys.run [.rotateLog calmWorld, .compressorOpens 2 calmCompress,
        .compressorCopies 2 calmCompress]).map
        (fun s => (s.prod.file, s.fs.lookup "/var/log/gollum_2015-03-01_10_3.log")))
      = some (some ⟨"/var/log/gollum_2015-03-01_10_3.log"⟩, none) := by
  simp only [Sys.run, Sys.step, rotateLog, openLog, needsRotate_eq]
  decide

/-- C5 (failing input): the producer writes `/var/log/gollum.gz`, so rotated
files end in `.gz` and the target of the compressor is the source itself.
Opening the target truncates the source; the copy loop ends with end-of-file;
the source is removed, and with it the `.gz`: nothing is kept.  When the copy
loop ends with another error the `.gz` is removed, and with it the source. -/
theorem compressAndCloseLog_gz_extension_destroys_log :
    compressOpen gzProd ⟨"/var/log/gollum_2015-03-01_10.gz"⟩
        [("/var/log/gollum_2015-03-01_10.gz", Entry.regular 5000000)] calmCompress
      = .ok (some ("/var/log/gollum_2015-03-01_10.gz",
              [("/var/log/gollum_2015-03-01_10.gz", Entry.regular 0)])) ∧
    copyChunks calmCompress.chunkErr
        (FS.size [("/var/log/gollum_2015-03-01_10.gz", Entry.regular 0)]
          "/var/log/gollum_2015-03-01_10.gz" / 2 ^ 20) 0 = CopyEnd.eof ∧
    compressAndCloseLog gzProd ⟨"/var/log/gollum_2015-03-01_10.gz"⟩
        [("/var/log/gollum_2015-03-01_10.gz", Entry.regular 5000000)] calmCompress = .ok [] ∧
    copyChunks brokenCompress.chunkErr
        (FS.size [("/var/log/gollum_2015-03-01_10.gz", Entry.regular 0)]
          "/var/log/gollum_2015-03-01_10.gz" / 2 ^ 20) 0
      = CopyEnd.failed ⟨"input/output error"⟩ ∧
    compressAndCloseLog gzProd ⟨"/var/log/gollum_2015-03-01_10.gz"⟩
        [("/var/log/gollum_2015-03-01_10.gz", Entry.regular 5000000)] brokenCompress = .ok [] := by
  decide

/-! ## The Scribe producer -/

/-- C12 (failing input): with no option set `Configure` succeeds and creates the
message buffer with a capacity of 16384, twice the default of 8192 KB counted
in KB, not 8192 × 1024 = 8388608 bytes. -/
theorem Scribe.Configure_default_capacity :
    emptySharedConf.GetInt "BufferSizeMaxKB" (8 * 2 ^ 10) = 8192 ∧
    (Scribe.Configure zeroScribe emptySharedConf calmScribeEnv).1 = none ∧
    (Scribe.Configure zeroScribe emptySharedConf calmScribeEnv).2.bufferSizeMax = 16384 ∧
    (Scribe.Configure zeroScribe emptySharedConf calmScribeEnv).2.bufferSizeMax
      ≠ 8192 * 1024 := by
  decide

theorem mapGet_mapSet_self {κ ν : Type} [DecidableEq κ] (m : GoMap κ ν) (k : κ) (v : ν) :
    mapGet (mapSet m k v) k = some v := by
  simp [mapGet, mapSet, List.lookup]

theorem mapGet_filter_ne {κ ν : Type} [DecidableEq κ] (m : GoMap κ ν) (k j : κ) (h : j ≠ k) :
    mapGet (m.filter (fun e => e.1 != k)) j = mapGet m j := by
  induction m with
  | nil => rfl
  | cons e m ih =>
    obtain ⟨a, b⟩ := e
    by_cases ha : a = k
    · have hb : (a != k) = false := by simpa using ha
      have hj : (j == a) = false := by simpa [ha] using h
      simp only [List.filter, hb]
      rw [ih]
      simp [mapGet, List.lookup, hj]
    · have hb : (a != k) = true := by simpa using ha
      simp only [List.filter, hb]
      by_cases hja : j = a
      · simp [mapGet, List.lookup, hja]
      · have hj : (j == a) = false := by simpa using hja
        simp only [mapGet, List.lookup, hj]
        exact ih

theorem mapGet_mapSet_ne {κ ν : Type} [DecidableEq κ] (m : GoMap κ ν) (k j : κ) (v : ν)
    (h : j ≠ k) : mapGet (mapSet m k v) j = mapGet m j := by
  have hj : (j == k) = false := by simpa using h
  unfold mapSet
  rw [← mapGet_filter_ne m k j h]
  simp [mapGet, List.lookup, hj]

/-- Filling the category map leaves alone every stream id that no configured
stream name hashes to. -/
theorem category_foldl_absent (hash : String → MessageStreamID) (l : List (String × String))
    (m : GoMap MessageStreamID String) (id : MessageStreamID)
    (h : ∀ e ∈ l, hash e.1 ≠ id) :
    mapGet (l.foldl (fun m e => mapSet m (hash e.1) e.2) m) id = mapGet m id := by
  induction l generalizing m with
  | nil => rfl
  | cons e l ih =>
    rw [List.foldl_cons, ih _ (fun e1 h1 => h e1 (List.mem_cons_of_mem _ h1))]
    exact mapGet_mapSet_ne _ _ _ _ (Ne.symm (h e (List.mem_cons_self _ _)))

/-- Filling the category map from a mapping with distinct stream names whose
hashes do not collide stores each category under the hash of its stream. -/
theorem category_foldl_present (hash : String → MessageStreamID) (l : List (String × String))
    (m : GoMap MessageStreamID String) (stream category : String)
    (hmem : (stream, category) ∈ l) (hnodup : (l.map Prod.fst).Nodup)
    (hinj : ∀ e1 ∈ l, ∀ e2 ∈ l, hash e1.1 = hash e2.1 → e1.1 = e2.1) :
    mapGet (l.foldl (fun m e => mapSet m (hash e.1) e.2) m) (hash stream) = some category := by
  induction l generalizing m with
  | nil => simp at hmem
  | cons e l ih =>
    rw [List.map_cons, List.nodup_cons] at hnodup
    rw [List.foldl_cons]
    rcases List.mem_cons.mp hmem with heq | hin
    · subst heq
      rw [category_foldl_absent]
      · exact mapGet_mapSet_self _ _ _
      · intro e1 h1 hc
        have := hinj e1 (List.mem_cons_of_mem _ h1) (stream, category)
          (List.mem_cons_self _ _) hc
        exact hnodup.1 (List.mem_map.mpr ⟨e1, h1, this⟩)
    · exact ih _ hin hnodup.2
        (fun e1 h1 e2 h2 => hinj e1 (List.mem_cons_of_mem _ h1) e2 (List.mem_cons_of_mem _ h2))

theorem SharedPluginConfig.GetStringMap_Override (conf : SharedPluginConfig)
    (key k v : String) (dflt : List (String × String)) (h : key ≠ k) :
    (conf.Override k v).GetStringMap key dflt = conf.GetStringMap key dflt := by
  simp [SharedPluginConfig.GetStringMap, SharedPluginConfig.Override, h]

theorem SharedPluginConfig.GetInt_Override (conf : SharedPluginConfig)
    (key k v : String) (dflt : Int) (h : key ≠ k) :
    (conf.Override k v).GetInt key dflt = conf.GetInt key dflt := by
  simp [SharedPluginConfig.GetInt, SharedPluginConfig.Override, h]

/-- What a `Configure` that got past the base configuration leaves in the
producer: the buffer capacity, the category map filled from the configured
mapping (or from the default mapping of the wildcard stream to `default`), the
default category, and no message appended yet. -/
theorem Scribe.Configure_fields (prod0 prod : Scribe) (conf : SharedPluginConfig)
    (env : ScribeEnv) (err : Option GoError) (hbase : env.standardConfigure = none)
    (hconf : Scribe.Configure prod0 conf env = (err, prod)) :
    prod.bufferSizeMax = wrapInt64 (conf.GetInt "BufferSizeMaxKB" (8 * 2 ^ 10) * 2 ^ 1) ∧
    prod.category =
      (conf.GetStringMap "Category" [(WildcardStream, "default")]).foldl
        (fun m e => mapSet m (env.GetStreamID e.1) e.2) [] ∧
    prod.defaultCategory = (mapGet prod.category env.WildcardStreamID).getD "default" ∧
    prod.appended = [] := by
  have hmap : ∀ c : SharedPluginConfig,
      (if !c.HasValue "Delimiter" then c.Override "Delimiter" "" else c).GetStringMap
        "Category" [(WildcardStream, "default")]
        = c.GetStringMap "Category" [(WildcardStream, "default")] := by
    intro c
    split_ifs
    · exact SharedPluginConfig.GetStringMap_Override c _ _ _ _ (by decide)
    · rfl
  have hint : ∀ c : SharedPluginConfig,
      (if !c.HasValue "Delimiter" then c.Override "Delimiter" "" else c).GetInt
        "BufferSizeMaxKB" (8 * 2 ^ 10) = c.GetInt "BufferSizeMaxKB" (8 * 2 ^ 10) := by
    intro c
    split_ifs
    · exact SharedPluginConfig.GetInt_Override c _ _ _ _ (by decide)
    · rfl
  unfold Scribe.Configure at hconf
  simp only [hbase, hmap, hint] at hconf
  split at hconf <;>
    (injection hconf with _ h2
     subst h2
     split
     · next c hc => exact ⟨rfl, rfl, by simp only [hc, Option.getD_some], rfl⟩
     · next hc => exact ⟨rfl, rfl, by simp only [hc, Option.getD_none], rfl⟩)

/-- C11: after a successful `Configure`, for a Category mapping with distinct
stream names whose hashes (and the hash of the wildcard `*`) do not collide,
`sendMessage` appends the message under a category that is (a) the category
mapped to the message's stream if the mapping has an entry for it, (b)
otherwise the category mapped to `*` if the mapping has one, and `default` if
it has none, and (c) `default` if no Category mapping is configured. -/
theorem Scribe.sendMessage_category (prod0 prod : Scribe) (conf : SharedPluginConfig)
    (env : ScribeEnv) (message : ScribeMessage) (reached : Bool)
    (hconf : Scribe.Configure prod0 conf env = (none, prod))
    (hwild : env.GetStreamID WildcardStream = env.WildcardStreamID)
    (hnodup : ((conf.GetStringMap "Category" [(WildcardStream, "default")]).map
      Prod.fst).Nodup)
    (hinj : ∀ s t,
      s ∈ WildcardStream ::
        (conf.GetStringMap "Category" [(WildcardStream, "default")]).map Prod.fst →
      t ∈ WildcardStream ::
        (conf.GetStringMap "Category" [(WildcardStream, "default")]).map Prod.fst →
      env.GetStreamID s = env.GetStreamID t → s = t) :
    ∃ category,
      (prod.sendMessage message reached).1.appended = prod.appended ++ [(message, category)] ∧
      (∀ stream c, (stream, c) ∈ conf.GetStringMap "Category" [(WildcardStream, "default")] →
        message.PinnedStream = env.GetStreamID stream → category = c) ∧
      ((∀ stream c, (stream, c) ∈ conf.GetStringMap "Category" [(WildcardStream, "default")] →
          message.PinnedStream ≠ env.GetStreamID stream) →
        (∀ c, (WildcardStream, c) ∈ conf.GetStringMap "Category" [(WildcardStream, "default")] →
          category = c) ∧
        ((∀ c, (WildcardStream, c) ∉ conf.GetStringMap "Category" [(WildcardStream, "default")]) →
          category = "default")) ∧
      (conf.values "Category" = none → category = "default") := by
  have hbase : env.standardConfigure = none := by
    cases hb : env.standardConfigure with
    | none => rfl
    | some e => simp [Scribe.Configure, hb] at hconf
  obtain ⟨-, hcat, hdef, -⟩ := Scribe.Configure_fields prod0 prod conf env none hbase hconf
  generalize hl : conf.GetStringMap "Category" [(WildcardStream, "default")] = l at *
  have hinjl : ∀ e1 ∈ l, ∀ e2 ∈ l, env.GetStreamID e1.1 = env.GetStreamID e2.1 → e1.1 = e2.1 :=
    fun e1 h1 e2 h2 h =>
      hinj e1.1 e2.1 (List.mem_cons_of_mem _ (List.mem_map_of_mem _ h1))
        (List.mem_cons_of_mem _ (List.mem_map_of_mem _ h2)) h
  have hpresent : ∀ stream c, (stream, c) ∈ l →
      mapGet prod.category (env.GetStreamID stream) = some c := by
    intro stream c hmem
    rw [hcat]
    exact category_foldl_present env.GetStreamID l [] stream c hmem hnodup hinjl
  have habsent : ∀ id, (∀ e ∈ l, env.GetStreamID e.1 ≠ id) → mapGet prod.category id = none := by
    intro id h
    rw [hcat, category_foldl_absent env.GetStreamID l [] id h]
    rfl
  have hfirst : ∀ stream c, (stream, c) ∈ l →
      message.PinnedStream = env.GetStreamID stream →
      (mapGet prod.category message.PinnedStream).getD prod.defaultCategory = c := by
    intro stream c hmem hid
    rw [hid, hpresent stream c hmem]; rfl
  have hsecond : (∀ stream c, (stream, c) ∈ l → message.PinnedStream ≠ env.GetStreamID stream) →
      (∀ c, (WildcardStream, c) ∈ l →
        (mapGet prod.category message.PinnedStream).getD prod.defaultCategory = c) ∧
      ((∀ c, (WildcardStream, c) ∉ l) →
        (mapGet prod.category message.PinnedStream).getD prod.defaultCategory = "default") := by
    intro hno
    have hnone : mapGet prod.category message.PinnedStream = none :=
      habsent _ (fun e he => Ne.symm (hno e.1 e.2 he))
    rw [hnone, Option.getD_none, hdef]
    constructor
    · intro c hmem
      rw [← hwild, hpresent WildcardStream c hmem]; rfl
    · intro hnw
      rw [habsent env.WildcardStreamID]
      · rfl
      · intro e he hc
        have := hinj e.1 WildcardStream
          (List.mem_cons_of_mem _ (List.mem_map_of_mem _ he)) (List.mem_cons_self _ _)
          (hc.trans hwild.symm)
        exact hnw e.2 (by rw [← this]; exact he)
  refine ⟨(mapGet prod.category message.PinnedStream).getD prod.defaultCategory, ?_, hfirst,
    hsecond, ?_⟩
  · unfold Scribe.sendMessage
    cases mapGet prod.category message.PinnedStream <;> rfl
  · intro hnoconf
    have hl2 : l = [(WildcardStream, "default")] := by
      rw [← hl]; simp [SharedPluginConfig.GetStringMap, hnoconf]
    by_cases hid : message.PinnedStream = env.GetStreamID WildcardStream
    · exact hfirst WildcardStream "default" (by rw [hl2]; exact List.mem_cons_self _ _) hid
    · refine (hsecond ?_).1 "default" (by rw [hl2]; exact List.mem_cons_self _ _)
      intro stream c hmem
      rw [hl2] at hmem
      simp only [List.mem_singleton, Prod.mk.injEq] at hmem
      rw [hmem.1]; exact hid

/-- C11 at the mapping `console` to `web`, `*` to `misc`, and a message of the
stream `console`. -/
theorem Scribe.sendMessage_category_witness :
    Scribe.Configure zeroScribe categoryConf calmScribeEnv
      = (none, (Scribe.Configure zeroScribe categoryConf calmScribeEnv).2) ∧
    calmScribeEnv.GetStreamID WildcardStream = calmScribeEnv.WildcardStreamID ∧
    ((Scribe.Configure zeroScribe categoryConf calmScribeEnv).2.sendMessage
        ⟨sampleStreamID "console", "hello"⟩ false).1.appended
      = [(⟨sampleStreamID "console", "hello"⟩, "web")] ∧
    ∃ category,
      ((Scribe.Configure zeroScribe categoryConf calmScribeEnv).2.sendMessage
        ⟨sampleStreamID "console", "hello"⟩ false).1.appended
        = (Scribe.Configure zeroScribe categoryConf calmScribeEnv).2.appended
            ++ [(⟨sampleStreamID "console", "hello"⟩, category)] ∧
      category = "web" := by
  have hinj : ∀ s t,
      s ∈ WildcardStream ::
        (categoryConf.GetStringMap "Category" [(WildcardStream, "default")]).map Prod.fst →
      t ∈ WildcardStream ::
        (categoryConf.GetStringMap "Category" [(WildcardStream, "default")]).map Prod.fst →
      calmScribeEnv.GetStreamID s = calmScribeEnv.GetStreamID t → s = t := by
    have hl : WildcardStream ::
        (categoryConf.GetStringMap "Category" [(WildcardStream, "default")]).map Prod.fst
        = ["*", "console", "*"] := by decide
    intro s t hs ht h
    rw [hl] at hs ht
    simp only [List.mem_cons, List.mem_singleton, List.not_mem_nil, or_false] at hs ht
    rcases hs with rfl | rfl | rfl <;> rcases ht with rfl | rfl | rfl <;>
      first
        | rfl
        | exact absurd h (by decide)
  obtain ⟨category, h1, h2, -, -⟩ :=
    Scribe.sendMessage_category zeroScribe
      (Scribe.Configure zeroScribe categoryConf calmScribeEnv).2 categoryConf calmScribeEnv
      ⟨sampleStreamID "console", "hello"⟩ false (by decide) (by decide) (by decide) hinj
  exact ⟨by decide, by decide, by decide, category, h1,
    h2 "console" "web" (by decide) rfl⟩

/-! ## The log consumer -/

/-- C13 (failing input): the formatted text `disk full` followed by one
linefeed.  `Fire` enqueues the payload `disk ful`: the linefeed and the byte
before it are gone.  A text that is a lone linefeed makes `Fire` panic. -/
theorem LogConsumer.Fire_strips_two_bytes :
    (zeroConsumer.Fire diskFullEntry sprintNat 1).map
        (fun r => (r.err, r.enqueued.map (fun m => m.data)))
      = .ok (none, some "disk ful") ∧
    ("disk ful" : String) ≠ "disk full" ∧
    zeroConsumer.Fire { diskFullEntry with formatted := .ok "\n" } sprintNat 1
      = .error "slice bounds out of range" := by
  decide

/-- Whenever `Fire` hands a message to the router, the message is the new
message of some payload on the log stream with `Level` and `Time` set first and
the ad-hoc fields set after them. -/
theorem LogConsumer.Fire_enqueued {α : Type} (cons : LogConsumer) (entry : LogEntry α)
    (sprintv : α → String) (logStream : MessageStreamID) (r : FireResult) (msg : CoreMessage)
    (hfire : cons.Fire entry sprintv logStream = .ok r) (henq : r.enqueued = some msg) :
    ∃ payload, msg = entry.Data.foldl (fun msg field => msg.SetValue field.1 (sprintv field.2))
      (((NewMessage payload logStream).SetValue "Level" entry.Level.String).SetValue "Time"
        entry.timeString) := by
  unfold LogConsumer.Fire at hfire
  cases hf : entry.formatted with
  | error e =>
    rw [hf] at hfire
    simp only [Except.ok.injEq] at hfire
    rw [← hfire] at henq
    simp at henq
  | ok text =>
    rw [hf] at hfire
    simp only at hfire
    cases hl : text.data.getLast? with
    | none => rw [hl] at hfire; simp at hfire
    | some last =>
      rw [hl] at hfire
      simp only at hfire
      cases hs : (if last = '\n' then dropSuffixLen text 2 else Except.ok text) with
      | error p => rw [hs] at hfire; simp at hfire
      | ok payload =>
        rw [hs] at hfire
        simp only [Except.ok.injEq] at hfire
        rw [← hfire] at henq
        simp only [Option.some.injEq] at henq
        exact ⟨payload, henq.symm⟩

theorem CoreMessage.foldl_SetValue {α : Type} (sprintv : α → String) (l : List (String × α))
    (msg : CoreMessage) :
    l.foldl (fun msg field => msg.SetValue field.1 (sprintv field.2)) msg =
      { data := msg.data, streamID := msg.streamID,
        metadata := l.foldl (fun m field => mapSet m field.1 (sprintv field.2)) msg.metadata } := by
  induction l generalizing msg with
  | nil => rfl
  | cons f l ih => rw [List.foldl_cons, ih]; rfl

theorem metadata_foldl_absent {α : Type} (sprintv : α → String) (l : List (String × α))
    (m : GoMap String String) (key : String) (h : ∀ f ∈ l, f.1 ≠ key) :
    mapGet (l.foldl (fun m field => mapSet m field.1 (sprintv field.2)) m) key = mapGet m key := by
  induction l generalizing m with
  | nil => rfl
  | cons f l ih =>
    rw [List.foldl_cons, ih _ (fun f1 h1 => h f1 (List.mem_cons_of_mem _ h1))]
    exact mapGet_mapSet_ne _ _ _ _ (Ne.symm (h f (List.mem_cons_self _ _)))

theorem metadata_foldl_present {α : Type} (sprintv : α → String) (l : List (String × α))
    (m : GoMap String String) (name : String) (value : α)
    (hmem : (name, value) ∈ l) (hnodup : (l.map Prod.fst).Nodup) :
    mapGet (l.foldl (fun m field => mapSet m field.1 (sprintv field.2)) m) name
      = some (sprintv value) := by
  induction l generalizing m with
  | nil => simp at hmem
  | cons f l ih =>
    rw [List.map_cons, List.nodup_cons] at hnodup
    rw [List.foldl_cons]
    rcases List.mem_cons.mp hmem with heq | hin
    · subst heq
      rw [metadata_foldl_absent]
      · exact mapGet_mapSet_self _ _ _
      · intro f1 h1 hc
        exact hnodup.1 (List.mem_map.mpr ⟨f1, h1, hc⟩)
    · exact ih _ hin hnodup.2

/-- C14 (counterexample): an error entry with an ad-hoc field named `Level`
whose value renders as `7`.  The metadata key `Level` of the enqueued message
is `7`, not the level name `error`. -/
theorem LogConsumer.Fire_level_field_counterexample :
    (zeroConsumer.Fire levelFieldEntry sprintNat 1).map
        (fun r => r.enqueued.map (fun m => mapGet m.metadata "Level"))
      = .ok (some (some "7")) ∧
    levelFieldEntry.Level.String = "error" ∧
    ¬ ((some "7" : Option String) = some levelFieldEntry.Level.String) := by
  decide

/-- C14 (amended): in the message that `Fire` enqueues, every ad-hoc field
(name, value) of the entry has the metadata key `name` equal to the `%v`
rendering of `value`; the key `Level` equals the entry's level name unless an
ad-hoc field is named `Level`, and the key `Time` equals the entry's time
string unless an ad-hoc field is named `Time`.  The message is on the internal
log stream.  (The fields of a Go map have distinct names.) -/
theorem LogConsumer.Fire_metadata {α : Type} (cons : LogConsumer) (entry : LogEntry α)
    (sprintv : α → String) (logStream : MessageStreamID) (r : FireResult) (msg : CoreMessage)
    (hfire : cons.Fire entry sprintv logStream = .ok r) (henq : r.enqueued = some msg)
    (hnodup : (entry.Data.map Prod.fst).Nodup) :
    (∀ name value, (name, value) ∈ entry.Data →
      mapGet msg.metadata name = some (sprintv value)) ∧
    ((∀ value, ("Level", value) ∉ entry.Data) →
      mapGet msg.metadata "Level" = some entry.Level.String) ∧
    ((∀ value, ("Time", value) ∉ entry.Data) →
      mapGet msg.metadata "Time" = some entry.timeString) ∧
    msg.streamID = logStream := by
  obtain ⟨payload, hmsg⟩ := LogConsumer.Fire_enqueued cons entry sprintv logStream r msg hfire henq
  rw [CoreMessage.foldl_SetValue] at hmsg
  subst hmsg
  refine ⟨?_, ?_, ?_, rfl⟩
  · intro name value hmem
    exact metadata_foldl_present sprintv entry.Data _ name value hmem hnodup
  · intro hno
    show mapGet (entry.Data.foldl _ _) "Level" = _
    rw [metadata_foldl_absent sprintv entry.Data _ "Level"
      (fun f hf hc => hno f.2 (by rw [← hc]; exact hf))]
    simp only [CoreMessage.SetValue, NewMessage]
    rw [mapGet_mapSet_ne _ _ _ _ (by decide)]
    exact mapGet_mapSet_self _ _ _
  · intro hno
    show mapGet (entry.Data.foldl _ _) "Time" = _
    rw [metadata_foldl_absent sprintv entry.Data _ "Time"
      (fun f hf hc => hno f.2 (by rw [← hc]; exact hf))]
    simp only [CoreMessage.SetValue, NewMessage]
    exact mapGet_mapSet_self _ _ _

/-- The amended C14 at an error entry with the ad-hoc field `Scope`. -/
theorem LogConsumer.Fire_metadata_witness :
    ∃ r msg, zeroConsumer.Fire diskFullEntry sprintNat 1 = .ok r ∧ r.enqueued = some msg ∧
      (diskFullEntry.Data.map Prod.fst).Nodup ∧
      mapGet msg.metadata "Scope" = some "3" ∧
      mapGet msg.metadata "Level" = some "error" ∧
      mapGet msg.metadata "Time" = some "2015-03-01 10:20:00 +0000 UTC" ∧
      msg.streamID = 1 :=
  have hfire : zeroConsumer.Fire diskFullEntry sprintNat 1
      = .ok { err := none,
              enqueued := some
                { data := "disk ful", streamID := 1,
                  metadata := [("Scope", "3"), ("Time", "2015-03-01 10:20:00 +0000 UTC"),
                               ("Level", "error")] },
              metricInc := none } := by decide
  have h := LogConsumer.Fire_metadata zeroConsumer diskFullEntry sprintNat 1 _ _ hfire rfl
    (by decide)
  ⟨_, _, hfire, rfl, by decide, h.1 "Scope" 3 (by decide),
    h.2.1 (by intro v hv; simp [diskFullEntry] at hv),
    h.2.2.1 (by intro v hv; simp [diskFullEntry] at hv), h.2.2.2⟩

/-- The part of C13 that the code keeps: a formatted text that does not end in
a linefeed is enqueued unchanged; a text that ends in a linefeed loses the
linefeed and the character before it. -/
theorem LogConsumer.Fire_payload {α : Type} (cons : LogConsumer) (entry : LogEntry α)
    (sprintv : α → String) (logStream : MessageStreamID) (text : String)
    (hf : entry.formatted = .ok text) :
    (∀ last, text.data.getLast? = some last → last ≠ '\n' →
      ∃ r msg, cons.Fire entry sprintv logStream = .ok r ∧ r.enqueued = some msg ∧
        msg.data = text) ∧
    (∀ t c, text.data = t ++ [c, '\n'] →
      ∃ r msg, cons.Fire entry sprintv logStream = .ok r ∧ r.enqueued = some msg ∧
        msg.data = String.mk t) := by
  constructor
  · intro last hl hne
    unfold LogConsumer.Fire
    simp only [hf, hl, hne, if_false]
    refine ⟨_, _, rfl, rfl, ?_⟩
    rw [CoreMessage.foldl_SetValue]; rfl
  · intro t c ht
    have hl : text.data.getLast? = some '\n' := by
      rw [ht, show t ++ [c, '\n'] = (t ++ [c]) ++ ['\n'] by simp, List.getLast?_append]
      rfl
    have hd : dropSuffixLen text 2 = .ok (String.mk t) := by
      unfold dropSuffixLen
      have hlen : text.data.length = t.length + 2 := by rw [ht]; simp
      rw [if_pos (by omega), hlen, ht]
      simp
    unfold LogConsumer.Fire
    simp only [hf, hl, if_true, hd]
    refine ⟨_, _, rfl, rfl, ?_⟩
    rw [CoreMessage.foldl_SetValue]; rfl

/-- C15 (failing input): a fresh consumer whose `Consume` receives
`PluginControlStopConsumer`.  `Consume` returns with `stopped` set, and
`GetState` then returns `PluginStateDead`, not `PluginStateActive`. -/
theorem LogConsumer.GetState_dead_after_stop :
    zeroConsumer.GetState = PluginState.Active ∧
    (zeroConsumer.Consume [PluginControl.StopConsumer]).map (fun c => c.stopped) = some true ∧
    (zeroConsumer.Consume [PluginControl.StopConsumer]).map LogConsumer.GetState
      = some PluginState.Dead ∧
    ¬ ((zeroConsumer.Consume [PluginControl.StopConsumer]).map LogConsumer.GetState
      = some PluginState.Active) := by
  decide

/-- What `GetState` does: it returns `PluginStateActive` for every consumer
whose `Consume` has not received `PluginControlStopConsumer` (`stopped` is
false); once a stop is among the commands, `Consume` returns and `GetState`
returns `PluginStateDead`. -/
theorem LogConsumer.GetState_active_until_stop (cons : LogConsumer)
    (commands : List PluginControl) (hrun : cons.stopped = false)
    (hstop : PluginControl.StopConsumer ∈ commands) :
    cons.GetState = PluginState.Active ∧
    ∃ cons1, cons.Consume commands = some cons1 ∧ cons1.GetState = PluginState.Dead := by
  constructor
  · simp [LogConsumer.GetState, hrun]
  · induction commands with
    | nil => simp at hstop
    | cons c cs ih =>
      unfold LogConsumer.Consume
      by_cases hc : c = PluginControl.StopConsumer
      · rw [if_pos hc]; exact ⟨_, rfl, rfl⟩
      · rw [if_neg hc]
        rcases List.mem_cons.mp hstop with h | h
        · exact absurd h.symm hc
        · exact ih h

/-- A fresh consumer that receives a roll and then a stop. -/
theorem LogConsumer.GetState_active_until_stop_witness :
    zeroConsumer.stopped = false ∧
    PluginControl.StopConsumer ∈ [PluginControl.Roll, PluginControl.StopConsumer] ∧
    zeroConsumer.GetState = PluginState.Active ∧
    ∃ cons1, zeroConsumer.Consume [PluginControl.Roll, PluginControl.StopConsumer]
        = some cons1 ∧ cons1.GetState = PluginState.Dead :=
  have h := LogConsumer.GetState_active_until_stop zeroConsumer
    [PluginControl.Roll, PluginControl.StopConsumer] rfl (by decide)
  ⟨rfl, by decide, h.1, h.2⟩

/-! ## writeMessage -/

/-- C16 (counterexample): no file is open, `os.OpenFile` is refused, and the
batch has no room for the message.  The first `Append` returns false,
`openLog` returns the error, and `writeMessage` appends again without a
`Flush` in between. -/
theorem writeMessage_no_flush_counterexample :
    ((byteBatch 8).Append fullWriter.batch helloMessage).1 = false ∧
    (writeMessage (byteBatch 8) fullWriter deniedWorld helloMessage).calls
      = [BatchCall.Append helloMessage false, BatchCall.Append helloMessage false] ∧
    countFlush (writeMessage (byteBatch 8) fullWriter deniedWorld helloMessage).calls = 0 := by
  simp only [writeMessage, writeBatch, openLog, needsRotate_eq]
  decide

/-- C16 (amended): if the first `Append` returns true, `writeMessage` makes no
other call on the batch; if it returns false, `writeMessage` runs `writeBatch`,
which flushes the batch to the open file exactly when `openLog` returns no
error, and then calls `Append` once more, whatever `writeBatch` did.  So
`Append` is called at most twice and `Flush` at most once per message. -/
theorem writeMessage_protocol {β : Type} (ops : BatchOps β) (s : Writer β) (w : World)
    (message : CoreMessage) :
    ((ops.Append s.batch message).1 = true →
      (writeMessage ops s w message).calls = s.calls ++ [BatchCall.Append message true]) ∧
    ((ops.Append s.batch message).1 = false →
      ((openLog s.prod s.fs w).err = none →
        ∃ accepted, (writeMessage ops s w message).calls
          = s.calls ++ [BatchCall.Append message false,
                        BatchCall.Flush (openLog s.prod s.fs w).prod.file,
                        BatchCall.Append message accepted]) ∧
      ((openLog s.prod s.fs w).err ≠ none →
        ∃ accepted, (writeMessage ops s w message).calls
          = s.calls ++ [BatchCall.Append message false,
                        BatchCall.Append message accepted])) ∧
    countAppend (writeMessage ops s w message).calls ≤ countAppend s.calls + 2 ∧
    countFlush (writeMessage ops s w message).calls ≤ countFlush s.calls + 1 := by
  have key : (ops.Append s.batch message).1 = true ∧
        (writeMessage ops s w message).calls = s.calls ++ [BatchCall.Append message true]
      ∨ (ops.Append s.batch message).1 = false ∧ (openLog s.prod s.fs w).err = none ∧
        (∃ accepted, (writeMessage ops s w message).calls
          = s.calls ++ [BatchCall.Append message false,
                        BatchCall.Flush (openLog s.prod s.fs w).prod.file,
                        BatchCall.Append message accepted])
      ∨ (ops.Append s.batch message).1 = false ∧ (openLog s.prod s.fs w).err ≠ none ∧
        (∃ accepted, (writeMessage ops s w message).calls
          = s.calls ++ [BatchCall.Append message false,
                        BatchCall.Append message accepted]) := by
    unfold writeMessage
    cases hfirst : (ops.Append s.batch message).1 with
    | true => left; simp [hfirst]
    | false =>
      right
      simp only [hfirst, Bool.not_false, if_true, writeBatch]
      cases herr : (openLog s.prod s.fs w).err with
      | none =>
        left
        exact ⟨trivial, rfl,
          (ops.Append (ops.Flush (ops.Append s.batch message).2
            (openLog s.prod s.fs w).prod.file) message).1, by simp⟩
      | some e =>
        right
        exact ⟨trivial, by simp,
          (ops.Append (ops.Append s.batch message).2 message).1, by simp⟩
  rcases key with ⟨h1, hc⟩ | ⟨h1, h2, a, hc⟩ | ⟨h1, h2, a, hc⟩
  · refine ⟨fun _ => hc, fun h => (by rw [h1] at h; cases h), ?_, ?_⟩ <;>
      rw [hc] <;> simp [countAppend, countFlush]
  · refine ⟨fun h => (by rw [h1] at h; cases h),
      fun _ => ⟨fun _ => ⟨a, hc⟩, fun h => absurd h2 h⟩, ?_, ?_⟩ <;>
      rw [hc] <;> simp [countAppend, countFlush]
  · refine ⟨fun h => (by rw [h1] at h; cases h),
      fun _ => ⟨fun h => absurd h h2, fun _ => ⟨a, hc⟩⟩, ?_, ?_⟩ <;>
      rw [hc] <;> simp [countAppend, countFlush]

/-- The amended C16 at a batch without room for the message, once with
`os.OpenFile` succeeding and once with it refused. -/
theorem writeMessage_protocol_witness :
    ((byteBatch 8).Append fullWriter.batch helloMessage).1 = false ∧
    (openLog fullWriter.prod fullWriter.fs calmWorld).err = none ∧
    (∃ accepted, (writeMessage (byteBatch 8) fullWriter calmWorld helloMessage).calls
      = fullWriter.calls ++ [BatchCall.Append helloMessage false,
          BatchCall.Flush (openLog fullWriter.prod fullWriter.fs calmWorld).prod.file,
          BatchCall.Append helloMessage accepted]) ∧
    (openLog fullWriter.prod fullWriter.fs deniedWorld).err ≠ none ∧
    (∃ accepted, (writeMessage (byteBatch 8) fullWriter deniedWorld helloMessage).calls
      = fullWriter.calls ++ [BatchCall.Append helloMessage false,
          BatchCall.Append helloMessage accepted]) :=
  have hfirst : ((byteBatch 8).Append fullWriter.batch helloMessage).1 = false := by decide
  have hcalm : (openLog fullWriter.prod fullWriter.fs calmWorld).err = none := by
    simp only [openLog, needsRotate_eq]; decide
  have hdenied : (openLog fullWriter.prod fullWriter.fs deniedWorld).err ≠ none := by
    simp only [openLog, needsRotate_eq]; decide
  ⟨hfirst, hcalm,
    ((writeMessage_protocol (byteBatch 8) fullWriter calmWorld helloMessage).2.1 hfirst).1 hcalm,
    hdenied,
    ((writeMessage_protocol (byteBatch 8) fullWriter deniedWorld helloMessage).2.1 hfirst).2
      hdenied⟩

example :
    (writeMessage (byteBatch 8) fullWriter calmWorld helloMessage).calls
      = [BatchCall.Append helloMessage false,
         BatchCall.Flush (some ⟨"/var/log/gollum_2015-03-01_10.log"⟩),
         BatchCall.Append helloMessage true] := by
  simp only [writeMessage, writeBatch, openLog, needsRotate_eq]
  decide

end Gollum
